import Mathlib

/-!
# gltf2ve: extraction and flattening of triangle-mesh geometry

A shallow embedding of `src/gltf2ve.cpp`.

* `std::vector<T>` is a `List T`; `v[i]` by `operator[]` is the partial read
  `v[i]?`. The source does not check its reads. In `toDrawArrays` a read
  beyond the end of a vector faults and ends the run (`none`), as it does for
  a vector that was never allocated; `toDrawArraysWith` takes what such a
  read yields as a parameter and is the same function on all reads inside the
  vectors (`toDrawArraysWith_valid`, `toDrawArraysWith_fault`).
* `float` values are only produced by the asset library, stored and copied,
  so the element type `F` is a parameter; `resize` value-initialises new
  elements with `0`.
* `cgltf_size` is `size_t`, taken as 64 bits wide: products and sums
  computed in it are reduced modulo `2^64`.
* every `assert` is active; a failed one ends the run, and the model records
  which one failed (`Err`) and the `Geometry` as it stood at that point.
* the types and functions of `cgltf.h` (third party, not part of the
  repository's sources) are modelled by what the program uses of them.
-/

set_option autoImplicit false

namespace Gltf2ve

/-! ## Machine arithmetic -/

/-- Number of values of `cgltf_size` (`size_t`, 64 bits). -/
def SIZE_RANGE : Nat := 2 ^ 64

/-- Product `a * b` computed in `cgltf_size`. -/
def sizeMul (a b : Nat) : Nat := (a * b) % SIZE_RANGE

/-- The offset `idx * stride + j` computed in `cgltf_size`. -/
def offset (idx stride j : Nat) : Nat := (sizeMul idx stride + j) % SIZE_RANGE

/-! ## `std::vector` operations -/

/-- The method `std::vector::push_back`. -/
def push_back {α : Type} (v : List α) (x : α) : List α := v ++ [x]

/-- The method `std::vector::resize(n)`: keeps the first `n` elements and
fills up with value-initialised elements. -/
def resize {α : Type} [Zero α] (v : List α) (n : Nat) : List α :=
  v.take n ++ List.replicate (n - v.length) 0

/-! ## Data model -/

/-- The `struct Geometry` of the source (lines 12-16). -/
structure Geometry (F : Type) where
  vertexPositions : List F := []
  vertexColors : List F := []
  indices : List Nat := []
deriving DecidableEq, Repr

/-- A value-initialised `Geometry` (`Geometry out;`, `Geometry geometry{}`). -/
def Geometry.empty {F : Type} : Geometry F := { vertexPositions := [], vertexColors := [], indices := [] }

/-- The sizes of the three vectors and every stored index are values of
`cgltf_size`: what the C++ type guarantees of any `Geometry`. -/
def Geometry.Representable {F : Type} (geo : Geometry F) : Prop :=
  geo.vertexPositions.length < SIZE_RANGE ∧ geo.vertexColors.length < SIZE_RANGE ∧
    geo.indices.length < SIZE_RANGE ∧ ∀ i ∈ geo.indices, i < SIZE_RANGE

/-- The data-model invariants of an Indexed Geometry with `V` vertices:
three position floats and four colour floats per vertex, every index below
`V`. -/
def Geometry.Valid {F : Type} (geo : Geometry F) (V : Nat) : Prop :=
  geo.vertexPositions.length = 3 * V ∧ geo.vertexColors.length = 4 * V ∧
    ∀ i ∈ geo.indices, i < V

/-! ## The flattener (`toDrawArrays`, lines 28-46) -/

/-- One iteration of the loop of `toDrawArrays` (lines 33-43) for the index
`idx`: three position reads and pushes, then four colour reads and pushes. -/
def toDrawArraysStep {F : Type} (geo out : Geometry F) (idx : Nat) : Option (Geometry F) := do
  let x ← geo.vertexPositions[offset idx 3 0]?
  let out := { out with vertexPositions := push_back out.vertexPositions x }
  let y ← geo.vertexPositions[offset idx 3 1]?
  let out := { out with vertexPositions := push_back out.vertexPositions y }
  let z ← geo.vertexPositions[offset idx 3 2]?
  let out := { out with vertexPositions := push_back out.vertexPositions z }
  let r ← geo.vertexColors[offset idx 4 0]?
  let out := { out with vertexColors := push_back out.vertexColors r }
  let g ← geo.vertexColors[offset idx 4 1]?
  let out := { out with vertexColors := push_back out.vertexColors g }
  let b ← geo.vertexColors[offset idx 4 2]?
  let out := { out with vertexColors := push_back out.vertexColors b }
  let a ← geo.vertexColors[offset idx 4 3]?
  let out := { out with vertexColors := push_back out.vertexColors a }
  pure out

/-- The loop `for (cgltf_size idx : geo.indices)` of `toDrawArrays`. -/
def toDrawArraysLoop {F : Type} (geo : Geometry F) : List Nat → Geometry F → Option (Geometry F)
  | [], out => some out
  | idx :: rest, out =>
    match toDrawArraysStep geo out idx with
    | none => none
    | some out1 => toDrawArraysLoop geo rest out1

/-- The function `toDrawArrays` (lines 28-46). The two `reserve` calls do not
change the contents of `out`. `none`: a read beyond the end of a vector, taken
to fault; `toDrawArraysWith` below leaves open what such a read yields. -/
def toDrawArrays {F : Type} (geo : Geometry F) : Option (Geometry F) :=
  toDrawArraysLoop geo geo.indices Geometry.empty

/-! ## The asset library (`cgltf.h`) as the program uses it -/

/-- Modelled from the spec: the enumeration `cgltf_primitive_type` of
`cgltf.h` (the topology of a primitive); the header is not among the
sources. -/
inductive cgltf_primitive_type
  | points | lines | line_loop | line_strip | triangles | triangle_strip | triangle_fan
deriving DecidableEq, Repr

/-- Modelled from the spec: the enumeration `cgltf_attribute_type` of
`cgltf.h` (the semantic kind of an attribute). -/
inductive cgltf_attribute_type
  | invalid | position | normal | tangent | texcoord | color | joints | weights | custom
deriving DecidableEq, Repr

/-- Modelled from the spec: the enumeration `cgltf_component_type` of
`cgltf.h` (the storage type of one component of an accessor). -/
inductive cgltf_component_type
  | invalid | r_8 | r_8u | r_16 | r_16u | r_32u | r_32f
deriving DecidableEq, Repr

/-- Modelled from the spec: the enumeration `cgltf_type` of `cgltf.h` (the
component layout of an accessor). -/
inductive cgltf_type
  | invalid | scalar | vec2 | vec3 | vec4 | mat2 | mat3 | mat4
deriving DecidableEq, Repr

/-- Modelled from the spec: the fields of `cgltf_accessor` that the program
reads, and the contents of the buffer it views as the library decodes them:
`floats` is what `cgltf_accessor_unpack_floats` can deliver, `index_values`
what `cgltf_accessor_read_index` returns position by position. -/
structure cgltf_accessor (F : Type) where
  component_type : cgltf_component_type
  normalized : Bool
  type : cgltf_type
  count : Nat
  floats : List F
  index_values : List Nat
deriving DecidableEq, Repr

/-- Modelled from the spec: `cgltf_attribute`; `data` is a pointer that may
be null. -/
structure cgltf_attribute (F : Type) where
  type : cgltf_attribute_type
  data : Option (cgltf_accessor F)
deriving DecidableEq, Repr

/-- Modelled from the spec: `cgltf_primitive`; `indices` is a pointer that
may be null. -/
structure cgltf_primitive (F : Type) where
  type : cgltf_primitive_type
  attributes : List (cgltf_attribute F)
  indices : Option (cgltf_accessor F)
deriving DecidableEq, Repr

/-- Modelled from the spec: `cgltf_mesh`, a sequence of primitives. -/
structure cgltf_mesh (F : Type) where
  primitives : List (cgltf_primitive F)
deriving DecidableEq, Repr

/-- Modelled from the spec: `cgltf_node`; `mesh` is a pointer that may be
null. -/
structure cgltf_node (F : Type) where
  mesh : Option (cgltf_mesh F)
deriving DecidableEq, Repr

/-- Modelled from the spec: `cgltf_num_components` of `cgltf.h`, the number
of components of one element of an accessor of the given layout. -/
def cgltf_num_components : cgltf_type → Nat
  | .vec2 => 2
  | .vec3 => 3
  | .vec4 => 4
  | .mat2 => 4
  | .mat3 => 9
  | .mat4 => 16
  | .invalid => 1
  | .scalar => 1

/-- Modelled from the spec: `cgltf_accessor_unpack_floats(accessor, out,
float_count)` of `cgltf.h`. It writes at most `float_count` decoded floats
to the start of `out` and returns how many it wrote. The result is the new
content of `out` and the returned count. -/
def cgltf_accessor_unpack_floats {F : Type} (accessor : cgltf_accessor F) (out : List F)
    (float_count : Nat) : List F × Nat :=
  let written := accessor.floats.take float_count
  (written ++ out.drop written.length, written.length)

/-- Modelled from the spec: `cgltf_accessor_read_index(accessor, i)` of
`cgltf.h`, the `i`-th index as a `cgltf_size` (`0` where the library has
nothing to read). -/
def cgltf_accessor_read_index {F : Type} (accessor : cgltf_accessor F) (i : Nat) : Nat :=
  (accessor.index_values.getD i 0) % SIZE_RANGE

/-! ## The extractor (the walk in `main`, lines 73-120) -/

/-- The assertion of the walk that failed. -/
inductive Err
  /-- Line 81, `assert(!numProcessedMesh)`. -/
  | multipleMeshes
  /-- Line 85, `assert(primitive.type == cgltf_primitive_type_triangles)`. -/
  | topology
  /-- Line 93, `assert(accessor)`. -/
  | accessorNull
  /-- Line 94, `assert(accessor->type == vec3 || accessor->type == vec4)`. -/
  | accessorShape
  /-- Line 97, `assert(elementSize == 3 || elementSize == 4)`. -/
  | elementSize
  /-- Line 100, `assert(vertices)`. -/
  | verticesNull
  /-- Line 104, `assert(num > 0)`. -/
  | unpackedNothing
  /-- Line 105, `assert(num == accessor->count * elementSize)`. -/
  | unpackedCount
  /-- Line 110, the component type of the index accessor. -/
  | indexComponentType
  /-- Line 111, `assert(!accessor->normalized)`. -/
  | indexNormalized
  /-- Line 112, `assert(accessor->type == cgltf_type_scalar)`. -/
  | indexType
deriving DecidableEq, Repr

/-- How a part of the walk ends: normally with the geometry it leaves, or in
a failed assertion, with the geometry as it stood when the assertion
failed. -/
inductive Run (F : Type)
  | done (geometry : Geometry F)
  | abort (e : Err) (geometry : Geometry F)
deriving DecidableEq, Repr

/-- The target of the pointer that `getVertices` returns: one of the two
float vectors of the geometry. -/
inductive VertexBuffer
  | vertexPositions | vertexColors
deriving DecidableEq, Repr

/-- Reading through the pointer. -/
def VertexBuffer.read {F : Type} (b : VertexBuffer) (geo : Geometry F) : List F :=
  match b with
  | .vertexPositions => geo.vertexPositions
  | .vertexColors => geo.vertexColors

/-- Writing through the pointer. -/
def VertexBuffer.write {F : Type} (b : VertexBuffer) (geo : Geometry F) (v : List F) : Geometry F :=
  match b with
  | .vertexPositions => { geo with vertexPositions := v }
  | .vertexColors => { geo with vertexColors := v }

/-- The function `getVertices` (lines 18-26); `none` is `nullptr`. -/
def getVertices (attr : cgltf_attribute_type) : Option VertexBuffer :=
  if attr = .position then some .vertexPositions
  else if attr = .color then some .vertexColors
  else none

/-- The body of the attribute loop (lines 88-105) for one attribute. -/
def processAttribute {F : Type} [Zero F] (geometry : Geometry F) (attr : cgltf_attribute F) : Run F :=
  if attr.type ≠ .position ∧ attr.type ≠ .color then .done geometry
  else
    match attr.data with
    | none => .abort .accessorNull geometry
    | some accessor =>
      if ¬ (accessor.type = .vec3 ∨ accessor.type = .vec4) then .abort .accessorShape geometry
      else
        let elementSize := cgltf_num_components accessor.type
        if ¬ (elementSize = 3 ∨ elementSize = 4) then .abort .elementSize geometry
        else
          match getVertices attr.type with
          | none => .abort .verticesNull geometry
          | some vertices =>
            let float_count := sizeMul accessor.count elementSize
            let geometry1 := vertices.write geometry (resize (vertices.read geometry) float_count)
            let unpacked := cgltf_accessor_unpack_floats accessor (vertices.read geometry1) float_count
            let geometry2 := vertices.write geometry1 unpacked.1
            let num := unpacked.2
            if ¬ (num > 0) then .abort .unpackedNothing geometry2
            else if ¬ (num = float_count) then .abort .unpackedCount geometry2
            else .done geometry2

/-- The attribute loop (lines 87-106). -/
def processAttributes {F : Type} [Zero F] (geometry : Geometry F) : List (cgltf_attribute F) → Run F
  | [] => .done geometry
  | attr :: rest =>
    match processAttribute geometry attr with
    | .abort e g => .abort e g
    | .done g => processAttributes g rest

/-- The loop of lines 115-117: `indices[i] = cgltf_accessor_read_index(accessor, i)`
for `i = 0 .. count - 1`. -/
def readIndices {F : Type} (accessor : cgltf_accessor F) (indices : List Nat) : List Nat :=
  (List.range accessor.count).foldl (fun ind i => ind.set i (cgltf_accessor_read_index accessor i)) indices

/-- The index part of the primitive loop (lines 108-118). -/
def processIndices {F : Type} (geometry : Geometry F) (primitive : cgltf_primitive F) : Run F :=
  match primitive.indices with
  | none => .done geometry
  | some accessor =>
    if ¬ (accessor.component_type = .r_8u ∨ accessor.component_type = .r_16u
        ∨ accessor.component_type = .r_32u) then .abort .indexComponentType geometry
    else if accessor.normalized then .abort .indexNormalized geometry
    else if ¬ (accessor.type = .scalar) then .abort .indexType geometry
    else
      .done { geometry with indices := readIndices accessor (resize geometry.indices accessor.count) }

/-- The body of the primitive loop (lines 85-118) for one primitive. -/
def processPrimitive {F : Type} [Zero F] (geometry : Geometry F) (primitive : cgltf_primitive F) : Run F :=
  if ¬ (primitive.type = .triangles) then .abort .topology geometry
  else
    match processAttributes geometry primitive.attributes with
    | .abort e g => .abort e g
    | .done g => processIndices g primitive

/-- The primitive loop (lines 84-119). -/
def processPrimitives {F : Type} [Zero F] (geometry : Geometry F) : List (cgltf_primitive F) → Run F
  | [] => .done geometry
  | primitive :: rest =>
    match processPrimitive geometry primitive with
    | .abort e g => .abort e g
    | .done g => processPrimitives g rest

/-- The node loop (lines 76-120), from the state `geometry`,
`numProcessedMesh`. -/
def walkNodes {F : Type} [Zero F] : List (cgltf_node F) → Geometry F → Nat → Run F
  | [], geometry, _ => .done geometry
  | node :: rest, geometry, numProcessedMesh =>
    match node.mesh with
    | none => walkNodes rest geometry numProcessedMesh
    | some mesh =>
      if ¬ (numProcessedMesh = 0) then .abort .multipleMeshes geometry
      else
        match processPrimitives geometry mesh.primitives with
        | .abort e g => .abort e g
        | .done g => walkNodes rest g (numProcessedMesh + 1)

/-- The extraction walk of `main` (lines 73-120) over the nodes of the
loaded asset. -/
def extract {F : Type} [Zero F] (nodes : List (cgltf_node F)) : Run F :=
  walkNodes nodes Geometry.empty 0

/-- The function `main` from line 73 on, for a loaded and validated asset:
the Flat Geometry handed to the document emitter (line 122), `none` when
the run ends without output. -/
def main {F : Type} [Zero F] (nodes : List (cgltf_node F)) : Option (Geometry F) :=
  match extract nodes with
  | .abort _ _ => none
  | .done geometry => toDrawArrays geometry

/-! ## Reference functions for the statements -/

/-- The floats that belong to vertex `idx` in a vector laid out with `stride`
floats per vertex. -/
def vertexAt {F : Type} (v : List F) (stride idx : Nat) : List F :=
  (v.drop (stride * idx)).take stride

/-- The concatenation of the vertices selected by a sequence of indices. -/
def gather {F : Type} (v : List F) (stride : Nat) : List Nat → List F
  | [] => []
  | idx :: rest => vertexAt v stride idx ++ gather v stride rest

/-! ## Concrete inputs -/

/-- The positions of the worked example: four vertices of a unit square. -/
def quadPositions : List Int := [0, 0, 0, 1, 0, 0, 0, 1, 0, 1, 1, 0]

/-- The indices of the worked example: two triangles. -/
def quadIndices : List Nat := [0, 1, 2, 2, 1, 3]

/-- The worked example as it is given: no colour data. -/
def quadNoColors : Geometry Int :=
  { vertexPositions := quadPositions, vertexColors := [], indices := quadIndices }

/-- The worked example with the colour data `colors` added. -/
def quadWith (colors : List Int) : Geometry Int :=
  { vertexPositions := quadPositions, vertexColors := colors, indices := quadIndices }

/-- The worked example with a colour for each of its four vertices. -/
def quadColored : Geometry Int :=
  { vertexPositions := quadPositions
    vertexColors := [10, 11, 12, 13, 20, 21, 22, 23, 30, 31, 32, 33, 40, 41, 42, 43]
    indices := quadIndices }

/-- A single coloured triangle. -/
def triangleColored : Geometry Int :=
  { vertexPositions := [0, 0, 0, 1, 0, 0, 0, 1, 0]
    vertexColors := [1, 0, 0, 1, 0, 1, 0, 1, 0, 0, 1, 1]
    indices := [2, 0, 1] }

/-- Two vertices, one of them referenced three times. -/
def degenerateColored : Geometry Int :=
  { vertexPositions := [5, 6, 7, 8, 9, 10]
    vertexColors := [1, 2, 3, 4, 5, 6, 7, 8]
    indices := [1, 1, 0] }

/-! ## Reference functions for the walk -/

/-- The mesh-bearing nodes of a scene graph, in order. -/
def meshNodes {F : Type} (nodes : List (cgltf_node F)) : List (cgltf_node F) :=
  nodes.filter (fun node => node.mesh.isSome)

/-- The index sequence of an accessor in source order `0 .. count - 1`. -/
def indexValues {F : Type} (accessor : cgltf_accessor F) : List Nat :=
  (List.range accessor.count).map (cgltf_accessor_read_index accessor)

/-- The floats delivered for an accessor when it is unpacked in full. -/
def unpackedFloats {F : Type} (accessor : cgltf_accessor F) : List F :=
  accessor.floats.take (sizeMul accessor.count (cgltf_num_components accessor.type))

/-- Replacement semantics for the index vector: every primitive with an
index accessor replaces the vector by its own index sequence. -/
def replacedIndices {F : Type} (primitives : List (cgltf_primitive F)) (init : List Nat) : List Nat :=
  primitives.foldl (fun ind p => match p.indices with
    | none => ind
    | some accessor => indexValues accessor) init

/-- Replacement semantics for a float vector within one primitive: every
attribute of the given kind replaces the vector by its unpacked floats. -/
def replacedFloatsIn {F : Type} (kind : cgltf_attribute_type) (attrs : List (cgltf_attribute F))
    (init : List F) : List F :=
  attrs.foldl (fun v a => if a.type = kind then
    (match a.data with
      | none => v
      | some accessor => unpackedFloats accessor) else v) init

/-- Replacement semantics for a float vector over the primitives of a mesh. -/
def replacedFloats {F : Type} (kind : cgltf_attribute_type) (primitives : List (cgltf_primitive F))
    (init : List F) : List F :=
  primitives.foldl (fun v p => replacedFloatsIn kind p.attributes v) init

/-! ## Concrete scene graphs -/

/-- A scalar unsigned 16-bit index accessor over the given values. -/
def indexAccessor (values : List Nat) : cgltf_accessor Int :=
  { component_type := .r_16u, normalized := false, type := .scalar, count := values.length,
    floats := [], index_values := values }

/-- A 32-bit float accessor of the given layout with `count` elements. -/
def floatAccessor (type : cgltf_type) (count : Nat) (floats : List Int) : cgltf_accessor Int :=
  { component_type := .r_32f, normalized := false, type := type, count := count,
    floats := floats, index_values := [] }

/-- A node without a mesh. -/
def plainNode : cgltf_node Int := { mesh := none }

/-- A node whose mesh has the given primitives. -/
def meshNode (primitives : List (cgltf_primitive Int)) : cgltf_node Int :=
  { mesh := some { primitives := primitives } }

/-- A triangle primitive with one vertex position and three indices. -/
def trianglePrimitive (x y z : Int) (indices : List Nat) : cgltf_primitive Int :=
  { type := .triangles
    attributes := [{ type := .position, data := some (floatAccessor .vec3 1 [x, y, z]) }]
    indices := some (indexAccessor indices) }

/-- A line-strip primitive without attributes or indices. -/
def lineStripPrimitive : cgltf_primitive Int :=
  { type := .line_strip, attributes := [], indices := none }

/-- Two mesh-bearing nodes, the first with a line-strip primitive. -/
def twoMeshesLineStrip : List (cgltf_node Int) :=
  [meshNode [lineStripPrimitive], meshNode []]

/-- Two mesh-bearing nodes with triangle primitives, a plain node between. -/
def twoMeshesTriangles : List (cgltf_node Int) :=
  [meshNode [trianglePrimitive 1 2 3 [0, 0, 0]], plainNode, meshNode [trianglePrimitive 4 5 6 [0, 0, 0]]]

/-- One mesh with two triangle primitives. -/
def twoPrimitives : List (cgltf_node Int) :=
  [meshNode [trianglePrimitive 1 2 3 [0, 1, 2], trianglePrimitive 4 5 6 [3, 4, 5]]]

/-- One mesh whose only primitive has a four-component position accessor. -/
def positionVec4 : List (cgltf_node Int) :=
  [meshNode [{ type := .triangles
               attributes := [{ type := .position, data := some (floatAccessor .vec4 1 [1, 2, 3, 4]) }]
               indices := none }]]

/-- One mesh whose only primitive is a line strip with a two-component
colour accessor. -/
def lineStripColorVec2 : List (cgltf_node Int) :=
  [meshNode [{ type := .line_strip
               attributes := [{ type := .color, data := some (floatAccessor .vec2 1 [1, 2]) }]
               indices := none }]]

/-- One mesh whose only primitive is a triangle primitive with a
two-component colour accessor after a position attribute. -/
def triangleColorVec2 : List (cgltf_node Int) :=
  [meshNode [{ type := .triangles
               attributes := [{ type := .position, data := some (floatAccessor .vec3 1 [1, 2, 3]) },
                              { type := .color, data := some (floatAccessor .vec2 1 [1, 2]) }]
               indices := none }]]

/-- One mesh: a triangle primitive followed by a line strip. -/
def triangleThenLineStrip : List (cgltf_node Int) :=
  [meshNode [trianglePrimitive 1 2 3 [0, 0, 0], lineStripPrimitive]]

/-- One mesh: a triangle primitive with a two-component position accessor
followed by a line strip. -/
def badTriangleThenLineStrip : List (cgltf_node Int) :=
  [meshNode [{ type := .triangles
               attributes := [{ type := .position, data := some (floatAccessor .vec2 1 [1, 2]) }]
               indices := none }, lineStripPrimitive]]

/-- One mesh whose first primitive is a line strip, with a plain node before
it. -/
def lineStripFirst : List (cgltf_node Int) :=
  [plainNode, meshNode [lineStripPrimitive, trianglePrimitive 1 2 3 [0, 0, 0]]]

/-- What the walk leaves for `twoPrimitives`. -/
def twoPrimitivesResult : Geometry Int :=
  { vertexPositions := [4, 5, 6], vertexColors := [], indices := [3, 4, 5] }

/-! ## Concrete inputs for the identity index buffer -/

/-- Three coloured vertices with the identity index buffer `0 1 2`. -/
def identityIndexed : Geometry Int :=
  { vertexPositions := [0, 0, 0, 1, 0, 0, 0, 1, 0]
    vertexColors := [1, 0, 0, 1, 0, 1, 0, 1, 0, 0, 1, 1]
    indices := List.range 3 }

/-- Two coloured vertices, indexed in reverse order. -/
def reversedPair : Geometry Int :=
  { vertexPositions := [1, 2, 3, 4, 5, 6]
    vertexColors := [1, 1, 1, 1, 2, 2, 2, 2]
    indices := [1, 0] }

/-! ## Removing the attributes that the walk skips -/

/-- The attributes of semantic kind position or colour, in order: those that
line 88 does not skip. -/
def stripAttributes {F : Type} (attrs : List (cgltf_attribute F)) : List (cgltf_attribute F) :=
  attrs.filter (fun a => decide (a.type = .position ∨ a.type = .color))

/-- A primitive without its attributes of other kinds. -/
def stripPrimitive {F : Type} (p : cgltf_primitive F) : cgltf_primitive F :=
  { p with attributes := stripAttributes p.attributes }

/-- A mesh without the attributes of other kinds. -/
def stripMesh {F : Type} (m : cgltf_mesh F) : cgltf_mesh F :=
  { primitives := m.primitives.map stripPrimitive }

/-- A scene graph without the attributes of other kinds. -/
def stripIgnored {F : Type} (nodes : List (cgltf_node F)) : List (cgltf_node F) :=
  nodes.map (fun node => { mesh := node.mesh.map stripMesh })

/-- One mesh with a normal attribute without accessor, a texture-coordinate
attribute with a matrix accessor of the wrong count, and a position. -/
def withIgnoredAttributes : List (cgltf_node Int) :=
  [meshNode [{ type := .triangles
               attributes := [{ type := .normal, data := none },
                              { type := .texcoord, data := some (floatAccessor .mat4 7 [1]) },
                              { type := .position, data := some (floatAccessor .vec3 1 [1, 2, 3]) }]
               indices := none }]]

/-! ## Reference functions for the checks of the walk -/

/-- The float count `accessor->count * elementSize` of lines 102-105. -/
def floatCount {F : Type} (accessor : cgltf_accessor F) : Nat :=
  sizeMul accessor.count (cgltf_num_components accessor.type)

/-- The count that the unpacking call of line 103 returns for an accessor
(it does not depend on the previous content of the vector). -/
def unpackedNum {F : Type} (accessor : cgltf_accessor F) : Nat :=
  (cgltf_accessor_unpack_floats accessor [] (floatCount accessor)).2

/-- The attribute passes lines 88-105: it is of another kind, or its
accessor is present, is a three- or four-component vector, and unpacks to the
expected, non-zero number of floats. -/
def attributeAccepted {F : Type} (a : cgltf_attribute F) : Bool :=
  if a.type ≠ .position ∧ a.type ≠ .color then true
  else
    match a.data with
    | none => false
    | some accessor =>
      decide (accessor.type = .vec3 ∨ accessor.type = .vec4) &&
        decide (0 < unpackedNum accessor) && decide (unpackedNum accessor = floatCount accessor)

/-- The index format that lines 110-112 assert. -/
def indexFormatOk {F : Type} (accessor : cgltf_accessor F) : Bool :=
  decide (accessor.component_type = .r_8u ∨ accessor.component_type = .r_16u
    ∨ accessor.component_type = .r_32u) && !accessor.normalized && decide (accessor.type = .scalar)

/-- The primitive passes lines 85-118. -/
def primitiveAccepted {F : Type} (p : cgltf_primitive F) : Bool :=
  decide (p.type = .triangles) && p.attributes.all attributeAccepted &&
    (match p.indices with
      | none => true
      | some accessor => indexFormatOk accessor)

/-! ## Concrete accessors and scene graphs for the checks -/

/-- A three-component position accessor of three elements for which only
eight floats can be unpacked. -/
def shortAccessor : cgltf_accessor Int :=
  floatAccessor .vec3 3 [1, 2, 3, 4, 5, 6, 7, 8]

/-- One mesh whose only primitive has the short position accessor. -/
def shortUnpack : List (cgltf_node Int) :=
  [meshNode [{ type := .triangles
               attributes := [{ type := .position, data := some shortAccessor }]
               indices := none }]]

/-- A four-component colour accessor without elements. -/
def emptyAccessor : cgltf_accessor Int :=
  floatAccessor .vec4 0 []

/-- One mesh whose only primitive has a position and the empty colour
accessor. -/
def emptyColors : List (cgltf_node Int) :=
  [meshNode [{ type := .triangles
               attributes := [{ type := .position, data := some (floatAccessor .vec3 1 [1, 2, 3]) },
                              { type := .color, data := some emptyAccessor }]
               indices := none }]]

/-! ## Concrete scene graphs: non-indexed and three-component colours -/

/-- One mesh whose only primitive is a line strip without index accessor. -/
def lineStripOnly : List (cgltf_node Int) :=
  [meshNode [lineStripPrimitive]]

/-- A triangle primitive with three positions and three four-component
colours, without index accessor. -/
def nonIndexedPrimitive : cgltf_primitive Int :=
  { type := .triangles
    attributes := [{ type := .position, data := some (floatAccessor .vec3 3 [0, 0, 0, 1, 0, 0, 0, 1, 0]) },
                   { type := .color,
                     data := some (floatAccessor .vec4 3 [1, 0, 0, 1, 0, 1, 0, 1, 0, 0, 1, 1]) }]
    indices := none }

/-- One mesh with the non-indexed triangle. -/
def nonIndexed : List (cgltf_node Int) :=
  [meshNode [nonIndexedPrimitive]]

/-- One mesh: a triangle with three positions, three colours stored as
three-component vectors, and the indices `0 1 2`. -/
def colorsVec3 : List (cgltf_node Int) :=
  [meshNode [{ type := .triangles
               attributes := [{ type := .position,
                                data := some (floatAccessor .vec3 3 [0, 0, 0, 1, 0, 0, 0, 1, 0]) },
                              { type := .color,
                                data := some (floatAccessor .vec3 3 [1, 0, 0, 0, 1, 0, 0, 0, 1]) }]
               indices := some (indexAccessor [0, 1, 2]) }]]

/-- The worked example as a scene graph: one mesh, a triangle primitive with
four positions, the six indices, and no colour attribute. -/
def quadScene : List (cgltf_node Int) :=
  [meshNode [{ type := .triangles
               attributes := [{ type := .position, data := some (floatAccessor .vec3 4 quadPositions) }]
               indices := some (indexAccessor quadIndices) }]]

/-- The worked example as a scene graph with a four-component colour for
each vertex. -/
def quadSceneColored : List (cgltf_node Int) :=
  [meshNode [{ type := .triangles
               attributes := [{ type := .position, data := some (floatAccessor .vec3 4 quadPositions) },
                              { type := .color,
                                data := some (floatAccessor .vec4 4 quadColored.vertexColors) }]
               indices := some (indexAccessor quadIndices) }]]

/-! ## The flattener with unchecked reads

`operator[]` does not check its index. A read beyond the end of a vector is
still performed by the program: it either yields whatever lies at that place
in memory or the access faults. Which of the two happens is not determined by
the content of the vector, so it is a parameter here. `toDrawArrays` above is
the instance in which every such read faults. -/

/-- The read `v[i]` when a read beyond the end of `v` yields `beyond`
(`none`: the access faults). -/
def readAt {F : Type} (beyond : Option F) (v : List F) (i : Nat) : Option F :=
  match v[i]? with
  | some x => some x
  | none => beyond

/-- One iteration of the loop of `toDrawArrays` (lines 33-43) for the index
`idx`; `beyond j` is what the `j`-th of its seven reads yields if it is
beyond the end of its vector. -/
def toDrawArraysStepWith {F : Type} (beyond : Nat → Option F) (geo out : Geometry F) (idx : Nat) :
    Option (Geometry F) := do
  let x ← readAt (beyond 0) geo.vertexPositions (offset idx 3 0)
  let out := { out with vertexPositions := push_back out.vertexPositions x }
  let y ← readAt (beyond 1) geo.vertexPositions (offset idx 3 1)
  let out := { out with vertexPositions := push_back out.vertexPositions y }
  let z ← readAt (beyond 2) geo.vertexPositions (offset idx 3 2)
  let out := { out with vertexPositions := push_back out.vertexPositions z }
  let r ← readAt (beyond 3) geo.vertexColors (offset idx 4 0)
  let out := { out with vertexColors := push_back out.vertexColors r }
  let g ← readAt (beyond 4) geo.vertexColors (offset idx 4 1)
  let out := { out with vertexColors := push_back out.vertexColors g }
  let b ← readAt (beyond 5) geo.vertexColors (offset idx 4 2)
  let out := { out with vertexColors := push_back out.vertexColors b }
  let a ← readAt (beyond 6) geo.vertexColors (offset idx 4 3)
  let out := { out with vertexColors := push_back out.vertexColors a }
  pure out

/-- The loop of `toDrawArrays` from iteration `k` on; `beyond k j` is what
the `j`-th read of iteration `k` yields if it is beyond the end of its
vector. -/
def toDrawArraysLoopWith {F : Type} (beyond : Nat → Nat → Option F) (geo : Geometry F) :
    List Nat → Nat → Geometry F → Option (Geometry F)
  | [], _, out => some out
  | idx :: rest, k, out =>
    match toDrawArraysStepWith (beyond k) geo out idx with
    | none => none
    | some out1 => toDrawArraysLoopWith beyond geo rest (k + 1) out1

/-- The function `toDrawArrays` (lines 28-46) with unchecked reads. `none`:
a read faulted and the run ended without a result. -/
def toDrawArraysWith {F : Type} (beyond : Nat → Nat → Option F) (geo : Geometry F) :
    Option (Geometry F) :=
  toDrawArraysLoopWith beyond geo geo.indices 0 Geometry.empty

/-- One mesh with a triangle primitive whose index accessor is unsigned
16-bit with the values `2 0 1`. -/
def unsignedIndices : List (cgltf_node Int) :=
  [meshNode [trianglePrimitive 1 2 3 [2, 0, 1]]]

/-- A signed 16-bit scalar accessor used as index accessor. -/
def signedIndexAccessor : cgltf_accessor Int :=
  { component_type := .r_16, normalized := false, type := .scalar, count := 3,
    floats := [], index_values := [0, 1, 2] }

/-- A triangle primitive with one position and the signed index accessor. -/
def signedIndexPrimitive : cgltf_primitive Int :=
  { type := .triangles
    attributes := [{ type := .position, data := some (floatAccessor .vec3 1 [1, 2, 3]) }]
    indices := some signedIndexAccessor }

/-- One mesh with the primitive that has the signed index accessor. -/
def signedIndices : List (cgltf_node Int) :=
  [meshNode [signedIndexPrimitive]]

/-- What the walk leaves for `colorsVec3`: nine position floats and nine
colour floats. -/
def colorsVec3Result : Geometry Int :=
  { vertexPositions := [0, 0, 0, 1, 0, 0, 0, 1, 0], vertexColors := [1, 0, 0, 0, 1, 0, 0, 0, 1],
    indices := [0, 1, 2] }

/-! ## Lemmas on the flattener -/

theorem offset_eq (idx stride j : Nat) (h : idx * stride + j < SIZE_RANGE) :
    offset idx stride j = idx * stride + j := by
  have h1 : idx * stride < SIZE_RANGE := by omega
  simp [offset, sizeMul, Nat.mod_eq_of_lt h1, Nat.mod_eq_of_lt h]

theorem vertexAt_three {F : Type} (v : List F) (idx : Nat) (h : 3 * idx + 2 < v.length) :
    ∃ x y z, v[3 * idx]? = some x ∧ v[3 * idx + 1]? = some y ∧ v[3 * idx + 2]? = some z ∧
      vertexAt v 3 idx = [x, y, z] := by
  have h0 : 3 * idx < v.length := by omega
  have h1 : 3 * idx + 1 < v.length := by omega
  refine ⟨v[3 * idx], v[3 * idx + 1], v[3 * idx + 2], by simp [h0], by simp [h1], by simp [h], ?_⟩
  unfold vertexAt
  rw [List.drop_eq_getElem_cons h0, List.drop_eq_getElem_cons h1, List.drop_eq_getElem_cons h]
  rfl

theorem vertexAt_four {F : Type} (v : List F) (idx : Nat) (h : 4 * idx + 3 < v.length) :
    ∃ r g b a, v[4 * idx]? = some r ∧ v[4 * idx + 1]? = some g ∧ v[4 * idx + 2]? = some b ∧
      v[4 * idx + 3]? = some a ∧ vertexAt v 4 idx = [r, g, b, a] := by
  have h0 : 4 * idx < v.length := by omega
  have h1 : 4 * idx + 1 < v.length := by omega
  have h2 : 4 * idx + 2 < v.length := by omega
  refine ⟨v[4 * idx], v[4 * idx + 1], v[4 * idx + 2], v[4 * idx + 3],
    by simp [h0], by simp [h1], by simp [h2], by simp [h], ?_⟩
  unfold vertexAt
  rw [List.drop_eq_getElem_cons h0, List.drop_eq_getElem_cons h1, List.drop_eq_getElem_cons h2,
    List.drop_eq_getElem_cons h]
  rfl

/-- One iteration of the loop with all seven reads inside the vectors. -/
theorem toDrawArraysStep_inBounds {F : Type} (geo out : Geometry F) (idx : Nat)
    (hp : 3 * idx + 2 < geo.vertexPositions.length) (hc : 4 * idx + 3 < geo.vertexColors.length)
    (hs : geo.vertexColors.length ≤ SIZE_RANGE) :
    toDrawArraysStep geo out idx = some
      { vertexPositions := out.vertexPositions ++ vertexAt geo.vertexPositions 3 idx
        vertexColors := out.vertexColors ++ vertexAt geo.vertexColors 4 idx
        indices := out.indices } := by
  obtain ⟨x, y, z, hx, hy, hz, hxyz⟩ := vertexAt_three geo.vertexPositions idx hp
  obtain ⟨r, g, b, a, hr, hg, hb, ha, hrgba⟩ := vertexAt_four geo.vertexColors idx hc
  have o30 : offset idx 3 0 = 3 * idx := by rw [offset_eq] <;> omega
  have o31 : offset idx 3 1 = 3 * idx + 1 := by rw [offset_eq] <;> omega
  have o32 : offset idx 3 2 = 3 * idx + 2 := by rw [offset_eq] <;> omega
  have o40 : offset idx 4 0 = 4 * idx := by rw [offset_eq] <;> omega
  have o41 : offset idx 4 1 = 4 * idx + 1 := by rw [offset_eq] <;> omega
  have o42 : offset idx 4 2 = 4 * idx + 2 := by rw [offset_eq] <;> omega
  have o43 : offset idx 4 3 = 4 * idx + 3 := by rw [offset_eq] <;> omega
  simp [toDrawArraysStep, o30, o31, o32, o40, o41, o42, o43, hx, hy, hz, hr, hg, hb, ha,
    hxyz, hrgba, push_back]

/-- The loop over indices whose reads all stay inside the vectors. -/
theorem toDrawArraysLoop_inBounds {F : Type} (geo : Geometry F)
    (hs : geo.vertexColors.length ≤ SIZE_RANGE) (l : List Nat) :
    ∀ out : Geometry F,
      (∀ idx ∈ l, 3 * idx + 2 < geo.vertexPositions.length ∧ 4 * idx + 3 < geo.vertexColors.length) →
      toDrawArraysLoop geo l out = some
        { vertexPositions := out.vertexPositions ++ gather geo.vertexPositions 3 l
          vertexColors := out.vertexColors ++ gather geo.vertexColors 4 l
          indices := out.indices } := by
  induction l with
  | nil => intro out _; simp [toDrawArraysLoop, gather]
  | cons idx rest ih =>
    intro out h
    have hidx := h idx (List.mem_cons_self _ _)
    rw [toDrawArraysLoop, toDrawArraysStep_inBounds geo out idx hidx.1 hidx.2 hs]
    simp only
    rw [ih _ (fun i hi => h i (List.mem_cons_of_mem _ hi))]
    simp [gather]


theorem vertexAt_length {F : Type} (v : List F) (stride idx : Nat)
    (h : stride * idx + stride ≤ v.length) : (vertexAt v stride idx).length = stride := by
  simp [vertexAt]; omega

theorem gather_length {F : Type} (v : List F) (stride : Nat) (l : List Nat)
    (h : ∀ idx ∈ l, stride * idx + stride ≤ v.length) :
    (gather v stride l).length = stride * l.length := by
  induction l with
  | nil => simp [gather]
  | cons idx rest ih =>
    have h1 := vertexAt_length v stride idx (h idx (List.mem_cons_self _ _))
    have h2 := ih (fun i hi => h i (List.mem_cons_of_mem _ hi))
    simp [gather, h1, h2, Nat.mul_add, Nat.add_comm]

/-- The `k`-th group of `stride` floats of the gathered stream is the vertex
selected by the `k`-th index. -/
theorem gather_chunk {F : Type} (v : List F) (stride : Nat) (l : List Nat) :
    ∀ (k : Nat) (hk : k < l.length), (∀ idx ∈ l, stride * idx + stride ≤ v.length) →
      ((gather v stride l).drop (stride * k)).take stride = vertexAt v stride l[k] := by
  induction l with
  | nil => intro k hk; simp at hk
  | cons idx rest ih =>
    intro k hk h
    have h1 := vertexAt_length v stride idx (h idx (List.mem_cons_self _ _))
    cases k with
    | zero =>
      simp [gather, List.take_append_eq_append_take, h1]
    | succ k =>
      have hk2 : k < rest.length := by simpa using hk
      have := ih k hk2 (fun i hi => h i (List.mem_cons_of_mem _ hi))
      simp only [gather, List.getElem_cons_succ]
      rw [← this, Nat.mul_succ, Nat.add_comm, ← List.drop_drop]
      congr 2
      rw [List.drop_append_eq_append_drop, h1]
      simp [List.drop_eq_nil_of_le (Nat.le_of_eq h1)]

/-- What `toDrawArrays` returns for a valid geometry: the gathered streams. -/
theorem toDrawArrays_valid {F : Type} (G : Geometry F) (V : Nat) (hv : G.Valid V)
    (hr : G.Representable) :
    toDrawArrays G = some
      { vertexPositions := gather G.vertexPositions 3 G.indices
        vertexColors := gather G.vertexColors 4 G.indices
        indices := [] } := by
  obtain ⟨hp, hc, hi⟩ := hv
  have h := toDrawArraysLoop_inBounds G (Nat.le_of_lt hr.2.1) G.indices Geometry.empty
    (fun idx hidx => by have := hi idx hidx; constructor <;> omega)
  simpa [toDrawArrays, Geometry.empty] using h

/-- Reading a gathered stream at float `j` of its `k`-th vertex. -/
theorem gather_getElem_opt {F : Type} (v : List F) (stride : Nat) (l : List Nat) (k j : Nat)
    (hk : k < l.length) (hj : j < stride) (h : ∀ idx ∈ l, stride * idx + stride ≤ v.length) :
    (gather v stride l)[stride * k + j]? = v[stride * l[k] + j]? := by
  have h1 := congrArg (fun xs => xs[j]?) (gather_chunk v stride l k hk h)
  simpa [vertexAt, List.getElem?_take_of_lt hj, List.getElem?_drop] using h1

/-! ## The flattener: claims -/

/-- C1: for a geometry that satisfies the data-model invariants with `V`
vertices, `toDrawArrays` returns a result, and for every `k` below the number
of indices the three floats at offsets `3k`, `3k+1`, `3k+2` of its position
stream are the floats at offsets `3*indices[k]`, `3*indices[k]+1`,
`3*indices[k]+2` of the input positions. -/
theorem C1_positions_follow_indices {F : Type} (G : Geometry F) (V k : Nat)
    (hv : G.Valid V) (hr : G.Representable) (hk : k < G.indices.length) :
    ∃ out, toDrawArrays G = some out ∧
      ∀ j, j < 3 → ∃ x, out.vertexPositions[3 * k + j]? = some x ∧
        G.vertexPositions[3 * G.indices[k] + j]? = some x := by
  refine ⟨_, toDrawArrays_valid G V hv hr, ?_⟩
  intro j hj
  obtain ⟨hp, _, hi⟩ := hv
  have hidx : G.indices[k] < V := hi _ (List.getElem_mem hk)
  have hlt : 3 * G.indices[k] + j < G.vertexPositions.length := by omega
  refine ⟨G.vertexPositions[3 * G.indices[k] + j], ?_, by simp [hlt]⟩
  simp only
  rw [gather_getElem_opt G.vertexPositions 3 G.indices k j hk hj
    (fun idx hidx => by have := hi idx hidx; omega)]
  simp [hlt]

/-- C1, witness: the second triangle of the coloured quad starts at index 3. -/
theorem C1_positions_follow_indices_witness :
    ∃ out, toDrawArrays quadColored = some out ∧
      ∀ j, j < 3 → ∃ x, out.vertexPositions[3 * 3 + j]? = some x ∧
        quadColored.vertexPositions[3 * quadColored.indices[3] + j]? = some x :=
  C1_positions_follow_indices quadColored 4 3 (by unfold Geometry.Valid; decide)
    (by unfold Geometry.Representable; decide) (by decide)

/-- C2: for a geometry that satisfies the data-model invariants with `V`
vertices, `toDrawArrays` returns a result, and for every `k` below the number
of indices the four floats at offsets `4k .. 4k+3` of its colour stream are
the floats at offsets `4*indices[k] .. 4*indices[k]+3` of the input colours:
the same index and the same order as for the position stream. -/
theorem C2_colors_follow_indices {F : Type} (G : Geometry F) (V k : Nat)
    (hv : G.Valid V) (hr : G.Representable) (hk : k < G.indices.length) :
    ∃ out, toDrawArrays G = some out ∧
      ∀ j, j < 4 → ∃ x, out.vertexColors[4 * k + j]? = some x ∧
        G.vertexColors[4 * G.indices[k] + j]? = some x := by
  refine ⟨_, toDrawArrays_valid G V hv hr, ?_⟩
  intro j hj
  obtain ⟨_, hc, hi⟩ := hv
  have hidx : G.indices[k] < V := hi _ (List.getElem_mem hk)
  have hlt : 4 * G.indices[k] + j < G.vertexColors.length := by omega
  refine ⟨G.vertexColors[4 * G.indices[k] + j], ?_, by simp [hlt]⟩
  simp only
  rw [gather_getElem_opt G.vertexColors 4 G.indices k j hk hj
    (fun idx hidx => by have := hi idx hidx; omega)]
  simp [hlt]

/-- C2, witness: the first corner of the coloured triangle is vertex 2. -/
theorem C2_colors_follow_indices_witness :
    ∃ out, toDrawArrays triangleColored = some out ∧
      ∀ j, j < 4 → ∃ x, out.vertexColors[4 * 0 + j]? = some x ∧
        triangleColored.vertexColors[4 * triangleColored.indices[0] + j]? = some x :=
  C2_colors_follow_indices triangleColored 3 0 (by unfold Geometry.Valid; decide)
    (by unfold Geometry.Representable; decide) (by decide)

/-- C3: for a geometry that satisfies the data-model invariants,
`toDrawArrays` returns a result whose position stream has exactly
`3 * indices.length` floats and whose colour stream has exactly
`4 * indices.length` floats. -/
theorem C3_output_lengths {F : Type} (G : Geometry F) (V : Nat)
    (hv : G.Valid V) (hr : G.Representable) :
    ∃ out, toDrawArrays G = some out ∧
      out.vertexPositions.length = 3 * G.indices.length ∧
      out.vertexColors.length = 4 * G.indices.length := by
  refine ⟨_, toDrawArrays_valid G V hv hr, ?_, ?_⟩
  · exact gather_length _ 3 _ (fun idx hidx => by have := hv.2.2 idx hidx; have := hv.1; omega)
  · exact gather_length _ 4 _ (fun idx hidx => by have := hv.2.2 idx hidx; have := hv.2.1; omega)

/-- C3, witness: three indices over two vertices give 9 and 12 floats. -/
theorem C3_output_lengths_witness :
    ∃ out, toDrawArrays degenerateColored = some out ∧
      out.vertexPositions.length = 3 * degenerateColored.indices.length ∧
      out.vertexColors.length = 4 * degenerateColored.indices.length :=
  C3_output_lengths degenerateColored 2 (by unfold Geometry.Valid; decide)
    (by unfold Geometry.Representable; decide)

/-- C4, counterexample: the worked example as given, with positions and
indices but no colour data, has no output: the first colour read of
`toDrawArrays` is outside the empty colour vector. -/
theorem C4_example_without_colors_fails :
    quadNoColors.vertexColors = [] ∧ toDrawArrays quadNoColors = none := by
  decide

/-- C4, amended: once the worked example carries four colour floats for each
of its four vertices (any 16 floats), `toDrawArrays` returns a result whose
position stream is `[0,0,0, 1,0,0, 0,1,0, 0,1,0, 1,0,0, 1,1,0]`, 18 floats. -/
theorem C4_example_with_colors (colors : List Int) (hc : colors.length = 16) :
    ∃ out, toDrawArrays (quadWith colors) = some out ∧
      out.vertexPositions = [0, 0, 0, 1, 0, 0, 0, 1, 0, 0, 1, 0, 1, 0, 0, 1, 1, 0] ∧
      out.vertexPositions.length = 18 := by
  have hv : (quadWith colors).Valid 4 := by
    refine ⟨?_, ?_, ?_⟩
    · show quadPositions.length = 3 * 4
      decide
    · show colors.length = 4 * 4
      omega
    · show ∀ i ∈ quadIndices, i < 4
      decide
  have hr : (quadWith colors).Representable := by
    refine ⟨?_, ?_, ?_, ?_⟩
    · show quadPositions.length < SIZE_RANGE
      decide
    · show colors.length < SIZE_RANGE
      rw [hc]; decide
    · show quadIndices.length < SIZE_RANGE
      decide
    · show ∀ i ∈ quadIndices, i < SIZE_RANGE
      decide
  have hg : gather quadPositions 3 quadIndices
      = [0, 0, 0, 1, 0, 0, 0, 1, 0, 0, 1, 0, 1, 0, 0, 1, 1, 0] := by decide
  refine ⟨_, toDrawArrays_valid _ 4 hv hr, ?_, ?_⟩
  · exact hg
  · show (gather quadPositions 3 quadIndices).length = 18
    rw [hg]; rfl

/-- C4, witness: the example with sixteen colour floats. -/
theorem C4_example_with_colors_witness :
    ∃ out, toDrawArrays (quadWith (List.replicate 16 1)) = some out ∧
      out.vertexPositions = [0, 0, 0, 1, 0, 0, 0, 1, 0, 0, 1, 0, 1, 0, 0, 1, 1, 0] ∧
      out.vertexPositions.length = 18 :=
  C4_example_with_colors (List.replicate 16 1) (by decide)

/-! ## Unchecked reads -/

theorem readAt_inRange {F : Type} (beyond : Option F) (v : List F) (i : Nat) (x : F)
    (h : v[i]? = some x) : readAt beyond v i = some x := by
  simp [readAt, h]

/-- An iteration whose seven reads are inside the vectors does not depend on
what lies beyond them. -/
theorem toDrawArraysStepWith_inBounds {F : Type} (beyond : Nat → Option F) (geo out : Geometry F)
    (idx : Nat) (hp : 3 * idx + 2 < geo.vertexPositions.length)
    (hc : 4 * idx + 3 < geo.vertexColors.length) (hs : geo.vertexColors.length ≤ SIZE_RANGE) :
    toDrawArraysStepWith beyond geo out idx = toDrawArraysStep geo out idx := by
  obtain ⟨x, y, z, hx, hy, hz, _⟩ := vertexAt_three geo.vertexPositions idx hp
  obtain ⟨r, g, b, a, hr, hg, hb, ha, _⟩ := vertexAt_four geo.vertexColors idx hc
  have o30 : offset idx 3 0 = 3 * idx := by rw [offset_eq] <;> omega
  have o31 : offset idx 3 1 = 3 * idx + 1 := by rw [offset_eq] <;> omega
  have o32 : offset idx 3 2 = 3 * idx + 2 := by rw [offset_eq] <;> omega
  have o40 : offset idx 4 0 = 4 * idx := by rw [offset_eq] <;> omega
  have o41 : offset idx 4 1 = 4 * idx + 1 := by rw [offset_eq] <;> omega
  have o42 : offset idx 4 2 = 4 * idx + 2 := by rw [offset_eq] <;> omega
  have o43 : offset idx 4 3 = 4 * idx + 3 := by rw [offset_eq] <;> omega
  simp only [toDrawArraysStepWith, toDrawArraysStep, o30, o31, o32, o40, o41, o42, o43,
    readAt_inRange _ _ _ _ hx, readAt_inRange _ _ _ _ hy, readAt_inRange _ _ _ _ hz,
    readAt_inRange _ _ _ _ hr, readAt_inRange _ _ _ _ hg, readAt_inRange _ _ _ _ hb,
    readAt_inRange _ _ _ _ ha, hx, hy, hz, hr, hg, hb, ha]

theorem toDrawArraysLoopWith_inBounds {F : Type} (beyond : Nat → Nat → Option F)
    (geo : Geometry F) (hs : geo.vertexColors.length ≤ SIZE_RANGE) (l : List Nat)
    (h : ∀ idx ∈ l, 3 * idx + 2 < geo.vertexPositions.length ∧
      4 * idx + 3 < geo.vertexColors.length) :
    ∀ (k : Nat) (out : Geometry F),
      toDrawArraysLoopWith beyond geo l k out = toDrawArraysLoop geo l out := by
  induction l with
  | nil => intro k out; rfl
  | cons idx rest ih =>
    intro k out
    have hidx := h idx (List.mem_cons_self _ _)
    rw [toDrawArraysLoopWith, toDrawArraysLoop,
      toDrawArraysStepWith_inBounds (beyond k) geo out idx hidx.1 hidx.2 hs]
    cases toDrawArraysStep geo out idx with
    | none => rfl
    | some out1 => exact ih (fun i hi => h i (List.mem_cons_of_mem _ hi)) (k + 1) out1

/-- On a geometry that satisfies the data-model invariants no read is beyond
the end of a vector: the unchecked function is `toDrawArrays`, whatever lies
beyond the vectors. -/
theorem toDrawArraysWith_valid {F : Type} (beyond : Nat → Nat → Option F) (G : Geometry F)
    (V : Nat) (hv : G.Valid V) (hr : G.Representable) :
    toDrawArraysWith beyond G = toDrawArrays G := by
  obtain ⟨hp, hc, hi⟩ := hv
  exact toDrawArraysLoopWith_inBounds beyond G (Nat.le_of_lt hr.2.1) G.indices
    (fun idx hidx => by have := hi idx hidx; constructor <;> omega) 0 Geometry.empty

theorem meshNodes_cons_none {F : Type} (node : cgltf_node F) (rest : List (cgltf_node F))
    (h : node.mesh = none) : meshNodes (node :: rest) = meshNodes rest := by
  simp [meshNodes, h]

theorem meshNodes_cons_some {F : Type} (node : cgltf_node F) (rest : List (cgltf_node F))
    (m : cgltf_mesh F) (h : node.mesh = some m) :
    meshNodes (node :: rest) = node :: meshNodes rest := by
  simp [meshNodes, h]

theorem mesh_isSome_of_mem_meshNodes {F : Type} (nodes : List (cgltf_node F)) (node : cgltf_node F)
    (h : node ∈ meshNodes nodes) : node ∈ nodes ∧ ∃ m, node.mesh = some m := by
  simp only [meshNodes, List.mem_filter] at h
  exact ⟨h.1, Option.isSome_iff_exists.mp h.2⟩

/-- With a mesh already processed, a further mesh-bearing node fails the
assertion of line 81. -/
theorem walkNodes_busy {F : Type} [Zero F] (nodes : List (cgltf_node F)) :
    ∀ (g : Geometry F) (n : Nat), n ≠ 0 →
      walkNodes nodes g n =
        match meshNodes nodes with
        | [] => .done g
        | _ :: _ => .abort .multipleMeshes g := by
  induction nodes with
  | nil => intro g n _; simp [walkNodes, meshNodes]
  | cons node rest ih =>
    intro g n hn
    cases hm : node.mesh with
    | none => rw [walkNodes]; simp only [hm]; rw [ih g n hn, meshNodes_cons_none node rest hm]
    | some m => rw [walkNodes]; simp [hm, hn, meshNodes_cons_some node rest m hm]

/-- The walk from the initial counter, in terms of the mesh-bearing nodes. -/
theorem walkNodes_zero {F : Type} [Zero F] (nodes : List (cgltf_node F)) :
    ∀ (g : Geometry F),
      walkNodes nodes g 0 =
        match meshNodes nodes with
        | [] => .done g
        | first :: others =>
          match first.mesh with
          | none => .done g
          | some m =>
            match processPrimitives g m.primitives with
            | .abort e g1 => .abort e g1
            | .done g1 =>
              match others with
              | [] => .done g1
              | _ :: _ => .abort .multipleMeshes g1 := by
  induction nodes with
  | nil => intro g; simp [walkNodes, meshNodes]
  | cons node rest ih =>
    intro g
    cases hm : node.mesh with
    | none => rw [walkNodes]; simp only [hm]; rw [ih g, meshNodes_cons_none node rest hm]
    | some m =>
      rw [walkNodes, meshNodes_cons_some node rest m hm]
      simp only [hm]
      cases hp : processPrimitives g m.primitives with
      | abort e g1 => simp
      | done g1 => simp [walkNodes_busy rest g1 1 (by decide)]

theorem resize_length {α : Type} [Zero α] (v : List α) (n : Nat) : (resize v n).length = n := by
  simp [resize]; omega

/-- The assignment loop over `0 .. k - 1` has written the first `k` places. -/
theorem foldl_set_range {α : Type} (f : Nat → α) (k : Nat) :
    ∀ (l : List α), k ≤ l.length →
      (List.range k).foldl (fun ind i => ind.set i (f i)) l = (List.range k).map f ++ l.drop k := by
  induction k with
  | zero => intro l _; simp
  | succ k ih =>
    intro l hk
    rw [List.range_succ, List.foldl_append, ih l (by omega)]
    have hlen : ((List.range k).map f).length = k := by simp
    have hk' : k < l.length := by omega
    simp only [List.foldl_cons, List.foldl_nil, List.map_append, List.map_cons, List.map_nil]
    rw [List.set_append_right _ _ (by omega), hlen, Nat.sub_self, List.drop_eq_getElem_cons hk']
    simp only [List.set_cons_zero, List.append_assoc, List.singleton_append]

/-- The loop of lines 114-117 leaves exactly the index sequence of the
accessor, whatever the vector held before. -/
theorem readIndices_resize {F : Type} (accessor : cgltf_accessor F) (indices : List Nat) :
    readIndices accessor (resize indices accessor.count) = indexValues accessor := by
  unfold readIndices indexValues
  rw [foldl_set_range _ _ _ (by rw [resize_length])]
  simp [List.drop_eq_nil_of_le, resize_length]

/-- Unpacking into a vector that was resized to the requested count, when
the library reports that count: the vector holds the unpacked floats. -/
theorem unpack_full {F : Type} [Zero F] (accessor : cgltf_accessor F) (v : List F) (n : Nat)
    (h : (cgltf_accessor_unpack_floats accessor (resize v n) n).2 = n) :
    (cgltf_accessor_unpack_floats accessor (resize v n) n).1 = accessor.floats.take n := by
  simp only [cgltf_accessor_unpack_floats] at h ⊢
  rw [h, List.drop_eq_nil_of_le (by rw [resize_length]), List.append_nil]

theorem replacedFloatsIn_single {F : Type} (kind : cgltf_attribute_type) (a : cgltf_attribute F)
    (v : List F) :
    replacedFloatsIn kind [a] v = if a.type = kind then
      (match a.data with
        | none => v
        | some accessor => unpackedFloats accessor) else v := rfl

/-- What one successfully processed attribute leaves: the indices are
untouched, and the vector of its kind holds its unpacked floats. -/
theorem processAttribute_done {F : Type} [Zero F] (g g' : Geometry F) (a : cgltf_attribute F)
    (h : processAttribute g a = .done g') :
    g'.indices = g.indices ∧
      g'.vertexPositions = replacedFloatsIn .position [a] g.vertexPositions ∧
      g'.vertexColors = replacedFloatsIn .color [a] g.vertexColors := by
  unfold processAttribute at h
  split at h
  · next hk =>
    cases h
    simp [replacedFloatsIn_single, hk.1, hk.2]
  · next hk =>
    split at h
    · cases h
    · next accessor hd =>
      split at h
      · cases h
      · simp only at h
        split at h
        · cases h
        · split at h
          · cases h
          · next vertices hv =>
            split at h
            · cases h
            · split at h
              · cases h
              · next hnum0 hnum =>
                cases h
                simp only [not_not] at hnum
                have hu := unpack_full accessor (vertices.read g) _ (by
                  cases vertices <;> exact hnum)
                cases vertices with
                | vertexPositions =>
                  have ht : a.type = .position := by
                    unfold getVertices at hv
                    split at hv
                    · assumption
                    · split at hv <;> cases hv
                  simp [replacedFloatsIn_single, ht, hd, VertexBuffer.write, VertexBuffer.read,
                    unpackedFloats] at hu ⊢
                  exact hu
                | vertexColors =>
                  have ht : a.type = .color := by
                    unfold getVertices at hv
                    split at hv
                    · cases hv
                    · split at hv
                      · assumption
                      · cases hv
                  simp [replacedFloatsIn_single, ht, hd, VertexBuffer.write, VertexBuffer.read,
                    unpackedFloats] at hu ⊢
                  exact hu

theorem processAttributes_done {F : Type} [Zero F] (attrs : List (cgltf_attribute F)) :
    ∀ (g g' : Geometry F), processAttributes g attrs = .done g' →
      g'.indices = g.indices ∧
        g'.vertexPositions = replacedFloatsIn .position attrs g.vertexPositions ∧
        g'.vertexColors = replacedFloatsIn .color attrs g.vertexColors := by
  induction attrs with
  | nil => intro g g' h; cases h; exact ⟨rfl, rfl, rfl⟩
  | cons a rest ih =>
    intro g g' h
    rw [processAttributes] at h
    cases h1 : processAttribute g a with
    | abort e g1 => rw [h1] at h; cases h
    | done g1 =>
      rw [h1] at h
      obtain ⟨hi, hp, hc⟩ := processAttribute_done g g1 a h1
      obtain ⟨hi', hp', hc'⟩ := ih g1 g' h
      refine ⟨hi'.trans hi, ?_, ?_⟩
      · rw [hp', hp]; rfl
      · rw [hc', hc]; rfl

theorem processIndices_done {F : Type} (g g' : Geometry F) (p : cgltf_primitive F)
    (h : processIndices g p = .done g') :
    g'.vertexPositions = g.vertexPositions ∧ g'.vertexColors = g.vertexColors ∧
      g'.indices = replacedIndices [p] g.indices := by
  unfold processIndices at h
  split at h
  · next hn => cases h; simp [replacedIndices, hn]
  · next accessor hs =>
    split at h
    · cases h
    · split at h
      · cases h
      · split at h
        · cases h
        · cases h
          simp [replacedIndices, hs, readIndices_resize]

/-- A primitive that is processed without error is a triangle primitive; its
attributes and then its indices are processed without error. -/
theorem processPrimitive_done_parts {F : Type} [Zero F] (g g' : Geometry F) (p : cgltf_primitive F)
    (h : processPrimitive g p = .done g') :
    p.type = .triangles ∧
      ∃ g1, processAttributes g p.attributes = .done g1 ∧ processIndices g1 p = .done g' := by
  unfold processPrimitive at h
  split at h
  · cases h
  · next ht =>
    simp only [not_not] at ht
    cases h1 : processAttributes g p.attributes with
    | abort e g1 => rw [h1] at h; cases h
    | done g1 => rw [h1] at h; exact ⟨ht, g1, rfl, h⟩

theorem processPrimitive_done {F : Type} [Zero F] (g g' : Geometry F) (p : cgltf_primitive F)
    (h : processPrimitive g p = .done g') :
    g'.indices = replacedIndices [p] g.indices ∧
      g'.vertexPositions = replacedFloats .position [p] g.vertexPositions ∧
      g'.vertexColors = replacedFloats .color [p] g.vertexColors := by
  obtain ⟨_, g1, ha, hi⟩ := processPrimitive_done_parts g g' p h
  obtain ⟨hai, hap, hac⟩ := processAttributes_done p.attributes g g1 ha
  obtain ⟨hip, hic, hii⟩ := processIndices_done g1 g' p hi
  refine ⟨by rw [hii, hai], ?_, ?_⟩
  · rw [hip, hap]; rfl
  · rw [hic, hac]; rfl

/-- The primitive loop under replacement semantics. -/
theorem processPrimitives_done {F : Type} [Zero F] (ps : List (cgltf_primitive F)) :
    ∀ (g g' : Geometry F), processPrimitives g ps = .done g' →
      g'.indices = replacedIndices ps g.indices ∧
        g'.vertexPositions = replacedFloats .position ps g.vertexPositions ∧
        g'.vertexColors = replacedFloats .color ps g.vertexColors := by
  induction ps with
  | nil => intro g g' h; cases h; exact ⟨rfl, rfl, rfl⟩
  | cons p rest ih =>
    intro g g' h
    rw [processPrimitives] at h
    cases h1 : processPrimitive g p with
    | abort e g1 => rw [h1] at h; cases h
    | done g1 =>
      rw [h1] at h
      obtain ⟨hi, hp, hc⟩ := processPrimitive_done g g1 p h1
      obtain ⟨hi', hp', hc'⟩ := ih g1 g' h
      refine ⟨?_, ?_, ?_⟩
      · rw [hi', hi]; rfl
      · rw [hp', hp]; rfl
      · rw [hc', hc]; rfl

/-- The walk over a scene graph with exactly one mesh-bearing node is the
primitive loop over its mesh, from the empty geometry. -/
theorem extract_single_mesh {F : Type} [Zero F] (nodes : List (cgltf_node F))
    (node : cgltf_node F) (m : cgltf_mesh F)
    (hn : meshNodes nodes = [node]) (hm : node.mesh = some m) :
    extract nodes = processPrimitives Geometry.empty m.primitives := by
  rw [extract, walkNodes_zero nodes Geometry.empty, hn]
  simp only [hm]
  cases processPrimitives Geometry.empty m.primitives <;> rfl

theorem main_of_abort {F : Type} [Zero F] (nodes : List (cgltf_node F)) (e : Err) (g : Geometry F)
    (h : extract nodes = .abort e g) : main nodes = none := by
  simp [main, h]

theorem processAttributes_append {F : Type} [Zero F] (pre post : List (cgltf_attribute F)) :
    ∀ g : Geometry F, processAttributes g (pre ++ post) =
      match processAttributes g pre with
      | .abort e g1 => .abort e g1
      | .done g1 => processAttributes g1 post := by
  induction pre with
  | nil => intro g; rfl
  | cons a rest ih =>
    intro g
    rw [List.cons_append, processAttributes, processAttributes]
    cases processAttribute g a with
    | abort e g1 => rfl
    | done g1 => exact ih g1

theorem processPrimitives_append {F : Type} [Zero F] (pre post : List (cgltf_primitive F)) :
    ∀ g : Geometry F, processPrimitives g (pre ++ post) =
      match processPrimitives g pre with
      | .abort e g1 => .abort e g1
      | .done g1 => processPrimitives g1 post := by
  induction pre with
  | nil => intro g; rfl
  | cons p rest ih =>
    intro g
    rw [List.cons_append, processPrimitives, processPrimitives]
    cases processPrimitive g p with
    | abort e g1 => rfl
    | done g1 => exact ih g1

/-- An attribute loop that contains an attribute failing from every state
fails. -/
theorem processAttributes_abort_of_mem {F : Type} [Zero F] (attrs : List (cgltf_attribute F))
    (a : cgltf_attribute F) (ha : a ∈ attrs)
    (hbad : ∀ g : Geometry F, ∃ e g', processAttribute g a = .abort e g') :
    ∀ g : Geometry F, ∃ e g', processAttributes g attrs = .abort e g' := by
  induction attrs with
  | nil => simp at ha
  | cons b rest ih =>
    intro g
    rw [processAttributes]
    cases hb : processAttribute g b with
    | abort e g1 => exact ⟨e, g1, rfl⟩
    | done g1 =>
      rcases List.mem_cons.mp ha with rfl | hrest
      · obtain ⟨e, g', h⟩ := hbad g
        rw [h] at hb; cases hb
      · exact ih hrest g1

/-- A primitive loop that contains a primitive failing from every state
fails. -/
theorem processPrimitives_abort_of_mem {F : Type} [Zero F] (ps : List (cgltf_primitive F))
    (p : cgltf_primitive F) (hp : p ∈ ps)
    (hbad : ∀ g : Geometry F, ∃ e g', processPrimitive g p = .abort e g') :
    ∀ g : Geometry F, ∃ e g', processPrimitives g ps = .abort e g' := by
  induction ps with
  | nil => simp at hp
  | cons q rest ih =>
    intro g
    rw [processPrimitives]
    cases hq : processPrimitive g q with
    | abort e g1 => exact ⟨e, g1, rfl⟩
    | done g1 =>
      rcases List.mem_cons.mp hp with rfl | hrest
      · obtain ⟨e, g', h⟩ := hbad g
        rw [h] at hq; cases hq
      · exact ih hrest g1

theorem processPrimitive_abort_of_attributes {F : Type} [Zero F] (p : cgltf_primitive F)
    (hbad : ∀ g : Geometry F, ∃ e g', processAttributes g p.attributes = .abort e g') :
    ∀ g : Geometry F, ∃ e g', processPrimitive g p = .abort e g' := by
  intro g
  unfold processPrimitive
  split
  · exact ⟨_, _, rfl⟩
  · obtain ⟨e, g', h⟩ := hbad g
    rw [h]
    exact ⟨_, _, rfl⟩

/-- A walk over a scene graph with a mesh whose primitive loop fails from
every state fails. -/
theorem extract_abort_of_mem {F : Type} [Zero F] (nodes : List (cgltf_node F))
    (node : cgltf_node F) (m : cgltf_mesh F) (hnode : node ∈ nodes) (hm : node.mesh = some m)
    (hbad : ∀ g : Geometry F, ∃ e g', processPrimitives g m.primitives = .abort e g') :
    ∃ e g', extract nodes = .abort e g' := by
  have hmem : node ∈ meshNodes nodes := by
    simp [meshNodes, hnode, hm]
  rw [extract, walkNodes_zero nodes Geometry.empty]
  match hmn : meshNodes nodes with
  | [] => rw [hmn] at hmem; simp at hmem
  | first :: others =>
    obtain ⟨_, m1, hm1⟩ := mesh_isSome_of_mem_meshNodes nodes first (by rw [hmn]; simp)
    simp only [hm1]
    cases hp : processPrimitives Geometry.empty m1.primitives with
    | abort e g1 => exact ⟨e, g1, rfl⟩
    | done g1 =>
      match others with
      | [] =>
        rw [hmn] at hmem
        have : node = first := by simpa using hmem
        subst this
        rw [hm] at hm1; cases hm1
        obtain ⟨e, g', h⟩ := hbad Geometry.empty
        rw [h] at hp; cases hp
      | _ :: _ => exact ⟨_, g1, rfl⟩

/-- The walk ends in the error of the first mesh-bearing node when its
primitive loop fails. -/
theorem extract_first_mesh_abort {F : Type} [Zero F] (nodes : List (cgltf_node F))
    (node : cgltf_node F) (m : cgltf_mesh F) (e : Err) (g : Geometry F)
    (hn : (meshNodes nodes).head? = some node) (hm : node.mesh = some m)
    (hp : processPrimitives Geometry.empty m.primitives = .abort e g) :
    extract nodes = .abort e g := by
  rw [extract, walkNodes_zero nodes Geometry.empty]
  match hmn : meshNodes nodes with
  | [] => rw [hmn] at hn; cases hn
  | first :: others =>
    rw [hmn] at hn
    have : first = node := by simpa using hn
    subst this
    simp only [hm, hp]

/-- The shape assertion of line 94. -/
theorem processAttribute_shape {F : Type} [Zero F] (g : Geometry F) (a : cgltf_attribute F)
    (accessor : cgltf_accessor F) (hk : a.type = .position ∨ a.type = .color)
    (hd : a.data = some accessor) (h3 : accessor.type ≠ .vec3) (h4 : accessor.type ≠ .vec4) :
    processAttribute g a = .abort .accessorShape g := by
  unfold processAttribute
  have hk' : ¬ (a.type ≠ .position ∧ a.type ≠ .color) := by
    rcases hk with h | h <;> simp [h]
  simp [hk', hd, h3, h4]

/-- The topology assertion of line 85. -/
theorem processPrimitive_topology {F : Type} [Zero F] (g : Geometry F) (p : cgltf_primitive F)
    (ht : p.type ≠ .triangles) : processPrimitive g p = .abort .topology g := by
  simp [processPrimitive, ht]

/-- The walk over a scene graph with at least two mesh-bearing nodes. -/
theorem extract_two_meshes {F : Type} [Zero F] (nodes : List (cgltf_node F))
    (first second : cgltf_node F) (others : List (cgltf_node F)) (m : cgltf_mesh F)
    (hn : meshNodes nodes = first :: second :: others) (hm : first.mesh = some m) :
    extract nodes =
      match processPrimitives Geometry.empty m.primitives with
      | .abort e g1 => .abort e g1
      | .done g1 => .abort .multipleMeshes g1 := by
  rw [extract, walkNodes_zero nodes Geometry.empty, hn]
  simp only [hm]

/-! ## The extractor: claims -/

/-- C6, counterexample: two mesh-bearing nodes, the first with a line-strip
primitive: the walk aborts on the topology assertion of the first mesh and
never reaches the multiple-meshes assertion. -/
theorem C6_first_mesh_error_wins :
    (meshNodes twoMeshesLineStrip).length = 2 ∧
      extract twoMeshesLineStrip = .abort .topology Geometry.empty ∧
      ¬ ∃ g, extract twoMeshesLineStrip = .abort .multipleMeshes g := by
  have h : extract twoMeshesLineStrip = .abort .topology Geometry.empty := by decide
  refine ⟨by decide, h, ?_⟩
  rintro ⟨g, hg⟩
  rw [h] at hg
  cases hg

/-- C6, amended: for a scene graph with two or more mesh-bearing nodes the
walk always aborts and `main` produces no output. The failed assertion is the
multiple-meshes one when the mesh of the first mesh-bearing node is
processed without error (the geometry then holds what that mesh wrote);
otherwise the run ends in the error of that first mesh. -/
theorem C6_two_meshes_abort {F : Type} [Zero F] (nodes : List (cgltf_node F))
    (h : 2 ≤ (meshNodes nodes).length) :
    (∃ e g, extract nodes = .abort e g) ∧ main nodes = none ∧
      ∃ first m, (meshNodes nodes).head? = some first ∧ first.mesh = some m ∧
        (∀ g1, processPrimitives Geometry.empty m.primitives = .done g1 →
          extract nodes = .abort .multipleMeshes g1) ∧
        (∀ e g1, processPrimitives Geometry.empty m.primitives = .abort e g1 →
          extract nodes = .abort e g1) := by
  obtain ⟨first, second, others, hn⟩ : ∃ a b l, meshNodes nodes = a :: b :: l := by
    match hmn : meshNodes nodes with
    | [] => rw [hmn] at h; simp at h
    | [_] => rw [hmn] at h; simp at h
    | a :: b :: l => exact ⟨a, b, l, rfl⟩
  obtain ⟨_, m, hm⟩ := mesh_isSome_of_mem_meshNodes nodes first (by rw [hn]; simp)
  have hx := extract_two_meshes nodes first second others m hn hm
  have habort : ∃ e g, extract nodes = .abort e g := by
    cases hp : processPrimitives Geometry.empty m.primitives with
    | abort e g1 => rw [hp] at hx; exact ⟨e, g1, hx⟩
    | done g1 => rw [hp] at hx; exact ⟨_, g1, hx⟩
  refine ⟨habort, ?_, first, m, by rw [hn]; rfl, hm, ?_, ?_⟩
  · obtain ⟨e, g, hg⟩ := habort
    simp [main, hg]
  · intro g1 hp; rw [hp] at hx; exact hx
  · intro e g1 hp; rw [hp] at hx; exact hx

/-- C6, witness: two meshes with triangle primitives; the first is processed
and the second node fails the multiple-meshes assertion. -/
theorem C6_two_meshes_abort_witness :
    (∃ e g, extract twoMeshesTriangles = .abort e g) ∧ main twoMeshesTriangles = none ∧
      ∃ first m, (meshNodes twoMeshesTriangles).head? = some first ∧ first.mesh = some m ∧
        (∀ g1, processPrimitives Geometry.empty m.primitives = .done g1 →
          extract twoMeshesTriangles = .abort .multipleMeshes g1) ∧
        (∀ e g1, processPrimitives Geometry.empty m.primitives = .abort e g1 →
          extract twoMeshesTriangles = .abort e g1) :=
  C6_two_meshes_abort twoMeshesTriangles (by decide)

/-- C7: for a scene graph in which no node references a mesh (the graph
without nodes included) the walk ends normally with a geometry whose three
vectors are empty, `toDrawArrays` of it is a geometry with empty position
and colour streams, and that is the output of `main`: no error. -/
theorem C7_no_mesh_empty_output {F : Type} [Zero F] (nodes : List (cgltf_node F))
    (h : ∀ node ∈ nodes, node.mesh = none) :
    ∃ g, extract nodes = .done g ∧ g.vertexPositions = [] ∧ g.vertexColors = [] ∧ g.indices = [] ∧
      ∃ out, toDrawArrays g = some out ∧ main nodes = some out ∧
        out.vertexPositions = [] ∧ out.vertexColors = [] := by
  have hn : meshNodes nodes = [] := by
    simp only [meshNodes, List.filter_eq_nil_iff]
    intro node hnode
    simp [h node hnode]
  have hx : extract nodes = .done Geometry.empty := by
    rw [extract, walkNodes_zero nodes Geometry.empty, hn]
  refine ⟨Geometry.empty, hx, rfl, rfl, rfl, Geometry.empty, rfl, ?_, rfl, rfl⟩
  simp [main, hx, toDrawArrays, toDrawArraysLoop, Geometry.empty]

/-- C7, witness: two nodes without a mesh. -/
theorem C7_no_mesh_empty_output_witness :
    ∃ g, extract [plainNode, plainNode] = .done g ∧ g.vertexPositions = [] ∧ g.vertexColors = [] ∧
      g.indices = [] ∧
      ∃ out, toDrawArrays g = some out ∧ main [plainNode, plainNode] = some out ∧
        out.vertexPositions = [] ∧ out.vertexColors = [] :=
  C7_no_mesh_empty_output [plainNode, plainNode] (by decide)

/-- C8, counterexample: one mesh with two triangle primitives, the first
with position `1 2 3` and indices `0 1 2`, the second with position `4 5 6`
and indices `3 4 5`. The walk leaves the data of the second primitive only,
not the concatenation. -/
theorem C8_second_primitive_replaces :
    ∃ g, extract twoPrimitives = .done g ∧
      g.indices = [3, 4, 5] ∧ g.indices ≠ [0, 1, 2] ++ [3, 4, 5] ∧
      g.vertexPositions = [4, 5, 6] ∧ g.vertexPositions ≠ [1, 2, 3] ++ [4, 5, 6] := by
  refine ⟨{ vertexPositions := [4, 5, 6], vertexColors := [], indices := [3, 4, 5] }, ?_, ?_⟩
  · decide
  · decide

/-- C8, amended: for a scene graph with one mesh that is extracted without
error, every primitive replaces what the earlier primitives wrote: a
primitive with an index accessor sets `indices` to its own index sequence
(values not re-based), and each position or colour attribute sets
`vertexPositions` or `vertexColors` to its own unpacked floats. So the last
primitive that provides a buffer decides it; in particular, when the last
primitive has an index accessor, `indices` is exactly its index sequence. -/
theorem C8_primitives_replace {F : Type} [Zero F] (nodes : List (cgltf_node F))
    (node : cgltf_node F) (m : cgltf_mesh F) (g : Geometry F)
    (hn : meshNodes nodes = [node]) (hm : node.mesh = some m) (hd : extract nodes = .done g) :
    g.indices = replacedIndices m.primitives [] ∧
      g.vertexPositions = replacedFloats .position m.primitives [] ∧
      g.vertexColors = replacedFloats .color m.primitives [] ∧
      ∀ pre p accessor, m.primitives = pre ++ [p] → p.indices = some accessor →
        g.indices = indexValues accessor := by
  rw [extract_single_mesh nodes node m hn hm] at hd
  obtain ⟨hi, hp, hc⟩ := processPrimitives_done m.primitives Geometry.empty g hd
  refine ⟨hi, hp, hc, ?_⟩
  intro pre p accessor hps hacc
  rw [hi, hps]
  simp [replacedIndices, hacc]

/-- C8, witness: the mesh with two triangle primitives is extracted without
error and its indices are those of the second primitive. -/
theorem C8_primitives_replace_witness :
    extract twoPrimitives = .done twoPrimitivesResult ∧
      twoPrimitivesResult.indices = indexValues (indexAccessor [3, 4, 5]) :=
  ⟨by decide,
    (C8_primitives_replace twoPrimitives
      (meshNode [trianglePrimitive 1 2 3 [0, 1, 2], trianglePrimitive 4 5 6 [3, 4, 5]])
      { primitives := [trianglePrimitive 1 2 3 [0, 1, 2], trianglePrimitive 4 5 6 [3, 4, 5]] }
      twoPrimitivesResult (by decide) rfl (by decide)).2.2.2
      [trianglePrimitive 1 2 3 [0, 1, 2]] (trianglePrimitive 4 5 6 [3, 4, 5])
      (indexAccessor [3, 4, 5]) rfl rfl⟩

/-- C9, counterexample: a two-component colour attribute inside a line-strip
primitive. The scene graph contains a colour attribute that is neither a
three- nor a four-component vector, yet the walk ends on the topology
assertion of line 85, which precedes the attribute loop, and not on the shape
assertion. -/
theorem C9_topology_precedes_shape :
    extract lineStripColorVec2 = .abort .topology Geometry.empty ∧
      ¬ ∃ g, extract lineStripColorVec2 = .abort .accessorShape g := by
  have h : extract lineStripColorVec2 = .abort .topology Geometry.empty := by decide
  refine ⟨h, ?_⟩
  rintro ⟨g, hg⟩
  rw [h] at hg
  cases hg

/-- C9, amended: a position or colour attribute whose accessor is neither a
three- nor a four-component vector (a scalar, a two-component vector, a
matrix) is rejected whenever the walk reaches it: it aborts there with the
accessor-shape error, the geometry as the earlier attributes left it. No
scene graph that has such an attribute in a mesh is extracted without error,
and `main` produces no output for it, though the run may end in an earlier
error. The statement is silent on four-component position accessors. -/
theorem C9_shape_check {F : Type} [Zero F] (a : cgltf_attribute F) (accessor : cgltf_accessor F)
    (hk : a.type = .position ∨ a.type = .color) (hd : a.data = some accessor)
    (h3 : accessor.type ≠ .vec3) (h4 : accessor.type ≠ .vec4) :
    (∀ g, processAttribute g a = .abort .accessorShape g) ∧
      (∀ nodes node m p, node ∈ nodes → node.mesh = some m → p ∈ m.primitives →
        a ∈ p.attributes → (∃ e g, extract nodes = .abort e g) ∧ main nodes = none) ∧
      (∀ nodes node m pre p post apre apost g1 g2, (meshNodes nodes).head? = some node →
        node.mesh = some m → m.primitives = pre ++ p :: post →
        processPrimitives Geometry.empty pre = .done g1 → p.type = .triangles →
        p.attributes = apre ++ a :: apost → processAttributes g1 apre = .done g2 →
        extract nodes = .abort .accessorShape g2) := by
  have hlocal : ∀ g, processAttribute g a = .abort .accessorShape g :=
    fun g => processAttribute_shape g a accessor hk hd h3 h4
  refine ⟨hlocal, ?_, ?_⟩
  · intro nodes node m p hnode hm hp ha
    have hx : ∃ e g, extract nodes = .abort e g :=
      extract_abort_of_mem nodes node m hnode hm
        (processPrimitives_abort_of_mem m.primitives p hp
          (processPrimitive_abort_of_attributes p
            (processAttributes_abort_of_mem p.attributes a ha (fun g => ⟨_, _, hlocal g⟩))))
    obtain ⟨e, g, hg⟩ := hx
    exact ⟨⟨e, g, hg⟩, main_of_abort nodes e g hg⟩
  · intro nodes node m pre p post apre apost g1 g2 hn hm hps hpre ht hattrs hapre
    apply extract_first_mesh_abort nodes node m _ _ hn hm
    rw [hps, processPrimitives_append, hpre]
    simp only [processPrimitives, processPrimitive, ht, not_true_eq_false, if_false]
    rw [hattrs, processAttributes_append, hapre]
    simp only [processAttributes, hlocal g2]

/-- C9, witness: a two-component colour attribute after a position
attribute in a triangle primitive. -/
theorem C9_shape_check_witness :
    extract triangleColorVec2
      = .abort .accessorShape { vertexPositions := [1, 2, 3], vertexColors := [], indices := [] } :=
  (C9_shape_check { type := .color, data := some (floatAccessor .vec2 1 [1, 2]) }
    (floatAccessor .vec2 1 [1, 2]) (Or.inr rfl) rfl (by decide) (by decide)).2.2
    triangleColorVec2 _ _ [] _ [] [{ type := .position, data := some (floatAccessor .vec3 1 [1, 2, 3]) }] []
    Geometry.empty _ rfl rfl rfl rfl rfl rfl (by decide)

/-- C10, counterexample: in a mesh whose second primitive is a line strip,
the walk aborts on the topology assertion after the first primitive has
written positions and indices; and when the first primitive itself fails the
shape assertion, the line strip is never reached and the error is the shape
error. -/
theorem C10_earlier_primitive_counterexamples :
    extract triangleThenLineStrip
        = .abort .topology { vertexPositions := [1, 2, 3], vertexColors := [], indices := [0, 0, 0] } ∧
      extract badTriangleThenLineStrip = .abort .accessorShape Geometry.empty := by
  constructor <;> decide

/-- C10, amended: a single-mesh scene graph whose mesh has a primitive with a
topology other than triangles is never extracted without error, and `main`
produces no output. The topology assertion is the first statement of the
body of the primitive loop, before any attribute or index of that primitive
is unpacked: when the primitives before it are processed without error, the
walk aborts with the topology error and the geometry holds exactly what
those earlier primitives wrote; when it is the first primitive, the geometry
is still empty; when an earlier primitive fails, the walk ends in the error
of that primitive. -/
theorem C10_topology_check {F : Type} [Zero F] (nodes : List (cgltf_node F))
    (node : cgltf_node F) (m : cgltf_mesh F) (p : cgltf_primitive F)
    (hn : meshNodes nodes = [node]) (hm : node.mesh = some m) (hp : p ∈ m.primitives)
    (ht : p.type ≠ .triangles) :
    (∃ e g, extract nodes = .abort e g) ∧ main nodes = none ∧
      (∀ g, processPrimitive g p = .abort .topology g) ∧
      (∀ pre post g1, m.primitives = pre ++ p :: post →
        processPrimitives Geometry.empty pre = .done g1 → extract nodes = .abort .topology g1) ∧
      (∀ post, m.primitives = p :: post → extract nodes = .abort .topology Geometry.empty) ∧
      (∀ pre post e g1, m.primitives = pre ++ p :: post →
        processPrimitives Geometry.empty pre = .abort e g1 → extract nodes = .abort e g1) := by
  have hlocal : ∀ g, processPrimitive g p = .abort .topology g :=
    fun g => processPrimitive_topology g p ht
  have hnode : node ∈ nodes :=
    (mesh_isSome_of_mem_meshNodes nodes node (by rw [hn]; simp)).1
  have hx : ∃ e g, extract nodes = .abort e g :=
    extract_abort_of_mem nodes node m hnode hm
      (processPrimitives_abort_of_mem m.primitives p hp (fun g => ⟨_, _, hlocal g⟩))
  have hreach : ∀ pre post g1, m.primitives = pre ++ p :: post →
      processPrimitives Geometry.empty pre = .done g1 → extract nodes = .abort .topology g1 := by
    intro pre post g1 hps hpre
    rw [extract_single_mesh nodes node m hn hm, hps, processPrimitives_append, hpre]
    simp only [processPrimitives, hlocal g1]
  have hearlier : ∀ pre post e g1, m.primitives = pre ++ p :: post →
      processPrimitives Geometry.empty pre = .abort e g1 → extract nodes = .abort e g1 := by
    intro pre post e g1 hps hpre
    rw [extract_single_mesh nodes node m hn hm, hps, processPrimitives_append, hpre]
  obtain ⟨e, g, hg⟩ := hx
  exact ⟨⟨e, g, hg⟩, main_of_abort nodes e g hg, hlocal, hreach,
    fun post hps => hreach [] post Geometry.empty hps rfl, hearlier⟩

/-- C10, witness: a mesh whose first primitive is a line strip. -/
theorem C10_topology_check_witness :
    extract lineStripFirst = .abort .topology Geometry.empty :=
  (C10_topology_check lineStripFirst
    (meshNode [lineStripPrimitive, trianglePrimitive 1 2 3 [0, 0, 0]])
    { primitives := [lineStripPrimitive, trianglePrimitive 1 2 3 [0, 0, 0]] }
    lineStripPrimitive (by decide) rfl (by decide) (by decide)).2.2.2.2.1
    [trianglePrimitive 1 2 3 [0, 0, 0]] rfl

/-! ## The flattener: totality and the identity index buffer -/

theorem gather_append {F : Type} (v : List F) (stride : Nat) (l1 l2 : List Nat) :
    gather v stride (l1 ++ l2) = gather v stride l1 ++ gather v stride l2 := by
  induction l1 with
  | nil => rfl
  | cons idx rest ih => simp [gather, ih]

/-- Gathering the vertices `0 .. n - 1` in order copies the first `n`
vertices. -/
theorem gather_range {F : Type} (v : List F) (stride n : Nat) :
    gather v stride (List.range n) = v.take (stride * n) := by
  induction n with
  | zero => simp [gather]
  | succ n ih =>
    rw [List.range_succ, gather_append, ih, Nat.mul_succ, List.take_add]
    simp [gather, vertexAt]

/-- C13: flattening is total on valid input. For a geometry that satisfies
the data-model invariants with `V` vertices, each of the seven offsets that
`toDrawArrays` computes for an index (`idx*3+0..2` into the positions,
`idx*4+0..3` into the colours) lies inside its vector, so no read fails and
`toDrawArrays` returns the full output: three position floats and four
colour floats for every index. -/
theorem C13_flatten_total {F : Type} (G : Geometry F) (V : Nat)
    (hv : G.Valid V) (hr : G.Representable) :
    (∀ idx ∈ G.indices,
        (∀ j, j < 3 → offset idx 3 j < G.vertexPositions.length) ∧
        (∀ j, j < 4 → offset idx 4 j < G.vertexColors.length)) ∧
      toDrawArrays G ≠ none ∧
      ∃ out, toDrawArrays G = some out ∧
        out.vertexPositions.length = 3 * G.indices.length ∧
        out.vertexColors.length = 4 * G.indices.length := by
  have hv' := hv
  obtain ⟨hp, hc, hi⟩ := hv
  have hsz : G.vertexColors.length < SIZE_RANGE := hr.2.1
  have hres := toDrawArrays_valid G V hv' hr
  refine ⟨?_, by rw [hres]; simp, _, hres, ?_, ?_⟩
  · intro idx hidx
    have := hi idx hidx
    constructor
    · intro j hj
      rw [offset_eq idx 3 j (by omega)]; omega
    · intro j hj
      rw [offset_eq idx 4 j (by omega)]; omega
  · exact gather_length _ 3 _ (fun idx hidx => by have := hi idx hidx; omega)
  · exact gather_length _ 4 _ (fun idx hidx => by have := hi idx hidx; omega)

/-- C13, witness: two vertices indexed in reverse order. -/
theorem C13_flatten_total_witness :
    (∀ idx ∈ reversedPair.indices,
        (∀ j, j < 3 → offset idx 3 j < reversedPair.vertexPositions.length) ∧
        (∀ j, j < 4 → offset idx 4 j < reversedPair.vertexColors.length)) ∧
      toDrawArrays reversedPair ≠ none ∧
      ∃ out, toDrawArrays reversedPair = some out ∧
        out.vertexPositions.length = 3 * reversedPair.indices.length ∧
        out.vertexColors.length = 4 * reversedPair.indices.length :=
  C13_flatten_total reversedPair 2 (by unfold Geometry.Valid; decide)
    (by unfold Geometry.Representable; decide)

/-- C19: flattening with the identity index buffer is the identity on the
vertex data. For a geometry with `3 * V` position floats, `4 * V` colour
floats and indices `0, 1, .., V - 1`, `toDrawArrays` returns a result whose
position stream and colour stream are the input vectors. -/
theorem C19_identity_indices {F : Type} (G : Geometry F) (V : Nat)
    (hp : G.vertexPositions.length = 3 * V) (hc : G.vertexColors.length = 4 * V)
    (hi : G.indices = List.range V) (hr : G.Representable) :
    ∃ out, toDrawArrays G = some out ∧
      out.vertexPositions = G.vertexPositions ∧ out.vertexColors = G.vertexColors := by
  have hv : G.Valid V := ⟨hp, hc, by rw [hi]; intro i h; exact List.mem_range.mp h⟩
  refine ⟨_, toDrawArrays_valid G V hv hr, ?_, ?_⟩
  · show gather G.vertexPositions 3 G.indices = G.vertexPositions
    rw [hi, gather_range, ← hp, List.take_length]
  · show gather G.vertexColors 4 G.indices = G.vertexColors
    rw [hi, gather_range, ← hc, List.take_length]

/-- C19, witness: three vertices with indices `0 1 2`. -/
theorem C19_identity_indices_witness :
    ∃ out, toDrawArrays identityIndexed = some out ∧
      out.vertexPositions = identityIndexed.vertexPositions ∧
      out.vertexColors = identityIndexed.vertexColors :=
  C19_identity_indices identityIndexed 3 (by decide) (by decide) (by decide)
    (by unfold Geometry.Representable; decide)

/-! ## Attributes of other kinds -/

/-- The `continue` of line 89. -/
theorem processAttribute_ignored {F : Type} [Zero F] (g : Geometry F) (a : cgltf_attribute F)
    (h : ¬ (a.type = .position ∨ a.type = .color)) : processAttribute g a = .done g := by
  have h' : a.type ≠ .position ∧ a.type ≠ .color := by
    constructor <;> intro hc <;> exact h (by simp [hc])
  simp [processAttribute, h'.1, h'.2]

theorem processAttributes_strip {F : Type} [Zero F] (attrs : List (cgltf_attribute F)) :
    ∀ g : Geometry F, processAttributes g (stripAttributes attrs) = processAttributes g attrs := by
  induction attrs with
  | nil => intro g; rfl
  | cons a rest ih =>
    intro g
    by_cases hk : a.type = .position ∨ a.type = .color
    · have hf : stripAttributes (a :: rest) = a :: stripAttributes rest := by
        simp [stripAttributes, hk]
      rw [hf, processAttributes, processAttributes]
      cases processAttribute g a with
      | abort e g1 => rfl
      | done g1 => exact ih g1
    · have hf : stripAttributes (a :: rest) = stripAttributes rest := by
        simp [stripAttributes, hk]
      rw [hf, processAttributes, processAttribute_ignored g a hk]
      exact ih g

theorem processPrimitive_strip {F : Type} [Zero F] (g : Geometry F) (p : cgltf_primitive F) :
    processPrimitive g (stripPrimitive p) = processPrimitive g p := by
  have h1 : (stripPrimitive p).type = p.type := rfl
  have h2 : (stripPrimitive p).attributes = stripAttributes p.attributes := rfl
  have h3 : ∀ g1 : Geometry F, processIndices g1 (stripPrimitive p) = processIndices g1 p :=
    fun _ => rfl
  unfold processPrimitive
  rw [h1, h2, processAttributes_strip]
  simp only [h3]

theorem processPrimitives_strip {F : Type} [Zero F] (ps : List (cgltf_primitive F)) :
    ∀ g : Geometry F, processPrimitives g (ps.map stripPrimitive) = processPrimitives g ps := by
  induction ps with
  | nil => intro g; rfl
  | cons p rest ih =>
    intro g
    rw [List.map_cons, processPrimitives, processPrimitives, processPrimitive_strip]
    cases processPrimitive g p with
    | abort e g1 => rfl
    | done g1 => exact ih g1

theorem walkNodes_strip {F : Type} [Zero F] (nodes : List (cgltf_node F)) :
    ∀ (g : Geometry F) (n : Nat), walkNodes (stripIgnored nodes) g n = walkNodes nodes g n := by
  induction nodes with
  | nil => intro g n; rfl
  | cons node rest ih =>
    intro g n
    have hc : stripIgnored (node :: rest)
        = { mesh := node.mesh.map stripMesh } :: stripIgnored rest := rfl
    rw [hc, walkNodes, walkNodes]
    cases hm : node.mesh with
    | none => simp only [Option.map_none']; exact ih g n
    | some m =>
      simp only [Option.map_some']
      show (if ¬ (n = 0) then _ else
        match processPrimitives g (m.primitives.map stripPrimitive) with
        | .abort e g1 => Run.abort e g1
        | .done g1 => walkNodes (stripIgnored rest) g1 (n + 1)) = _
      rw [processPrimitives_strip]
      split
      · rfl
      · cases processPrimitives g m.primitives with
        | abort e g1 => rfl
        | done g1 => exact ih g1 (n + 1)

/-- C16: attributes whose semantic kind is neither position nor colour are
ignored. For every scene graph, the walk over the graph and the walk over
the graph with all those attributes removed end in the same way: the same
geometry, or the same failed assertion with the same geometry; and `main`
has the same output. The accessors of the removed attributes play no part. -/
theorem C16_other_attributes_ignored {F : Type} [Zero F] (nodes : List (cgltf_node F)) :
    extract (stripIgnored nodes) = extract nodes ∧ main (stripIgnored nodes) = main nodes := by
  have h : extract (stripIgnored nodes) = extract nodes := walkNodes_strip nodes Geometry.empty 0
  exact ⟨h, by simp only [main, h]⟩

/-- Example: a normal attribute without accessor and a texture-coordinate
attribute with a matrix accessor leave the outcome as it is without them. -/
theorem other_attributes_example :
    extract withIgnoredAttributes
        = .done { vertexPositions := [1, 2, 3], vertexColors := [], indices := [] } ∧
      extract (stripIgnored withIgnoredAttributes) = extract withIgnoredAttributes := by
  constructor <;> decide

/-! ## The checks of the walk, one by one -/

theorem unpack_num_eq {F : Type} (accessor : cgltf_accessor F) (out : List F) :
    (cgltf_accessor_unpack_floats accessor out (floatCount accessor)).2 = unpackedNum accessor :=
  rfl

/-- An attribute of kind position or colour whose accessor passes the shape
assertion: the outcome is decided by the two assertions on the unpacked
count. -/
theorem processAttribute_unpack {F : Type} [Zero F] (g : Geometry F) (a : cgltf_attribute F)
    (accessor : cgltf_accessor F) (hk : a.type = .position ∨ a.type = .color)
    (hd : a.data = some accessor) (hs : accessor.type = .vec3 ∨ accessor.type = .vec4) :
    ∃ g2 : Geometry F, g2.indices = g.indices ∧
      processAttribute g a =
        if unpackedNum accessor = 0 then .abort .unpackedNothing g2
        else if unpackedNum accessor ≠ floatCount accessor then .abort .unpackedCount g2
        else .done g2 := by
  have hk' : ¬ (a.type ≠ .position ∧ a.type ≠ .color) := by
    rcases hk with h | h <;> simp [h]
  have hes : cgltf_num_components accessor.type = 3 ∨ cgltf_num_components accessor.type = 4 := by
    rcases hs with h | h <;> simp [h, cgltf_num_components]
  obtain ⟨vertices, hv⟩ : ∃ vertices, getVertices a.type = some vertices := by
    rcases hk with h | h <;> simp [h, getVertices]
  refine ⟨vertices.write (vertices.write g (resize (vertices.read g) (floatCount accessor)))
    (cgltf_accessor_unpack_floats accessor
      (vertices.read (vertices.write g (resize (vertices.read g) (floatCount accessor))))
      (floatCount accessor)).1, ?_, ?_⟩
  · cases vertices <;> rfl
  · have hfc : sizeMul accessor.count (cgltf_num_components accessor.type) = floatCount accessor :=
      rfl
    unfold processAttribute
    simp only [hk', hd, hs, hes, hv, if_false, not_true_eq_false, hfc, unpack_num_eq]
    by_cases h0 : unpackedNum accessor = 0
    · simp [h0]
    · have hpos : unpackedNum accessor > 0 := Nat.pos_of_ne_zero h0
      by_cases h1 : unpackedNum accessor = floatCount accessor
      · simp only [hpos, h0, h1, not_true_eq_false, if_false, ne_eq]
        simp [h1 ▸ h0]
      · simp [hpos, h0, h1]


theorem processAttribute_null {F : Type} [Zero F] (g : Geometry F) (a : cgltf_attribute F)
    (hk : a.type = .position ∨ a.type = .color) (hd : a.data = none) :
    processAttribute g a = .abort .accessorNull g := by
  have hk' : ¬ (a.type ≠ .position ∧ a.type ≠ .color) := by
    rcases hk with h | h <;> simp [h]
  simp [processAttribute, hk', hd]

/-- An accepted attribute is processed without error from every state. -/
theorem processAttribute_accepted {F : Type} [Zero F] (a : cgltf_attribute F)
    (h : attributeAccepted a = true) (g : Geometry F) :
    ∃ g', processAttribute g a = .done g' ∧ g'.indices = g.indices := by
  by_cases hk : a.type = .position ∨ a.type = .color
  · have hk' : ¬ (a.type ≠ .position ∧ a.type ≠ .color) := by
      rcases hk with h | h <;> simp [h]
    unfold attributeAccepted at h
    rw [if_neg hk'] at h
    cases hd : a.data with
    | none => rw [hd] at h; cases h
    | some accessor =>
      rw [hd] at h
      simp only [Bool.and_eq_true, decide_eq_true_eq] at h
      obtain ⟨⟨hs, hpos⟩, hnum⟩ := h
      obtain ⟨g2, hi, hp⟩ := processAttribute_unpack g a accessor hk hd hs
      refine ⟨g2, ?_, hi⟩
      rw [hp, if_neg (by omega), if_neg (by simp [hnum])]
  · exact ⟨g, processAttribute_ignored g a hk, rfl⟩

/-- An attribute that is processed without error is an accepted one. -/
theorem processAttribute_done_accepted {F : Type} [Zero F] (g g' : Geometry F)
    (a : cgltf_attribute F) (h : processAttribute g a = .done g') : attributeAccepted a = true := by
  by_cases hk : a.type = .position ∨ a.type = .color
  · have hk' : ¬ (a.type ≠ .position ∧ a.type ≠ .color) := by
      rcases hk with h | h <;> simp [h]
    unfold attributeAccepted
    rw [if_neg hk']
    cases hd : a.data with
    | none => rw [processAttribute_null g a hk hd] at h; cases h
    | some accessor =>
      by_cases hs : accessor.type = .vec3 ∨ accessor.type = .vec4
      · obtain ⟨g2, _, hp⟩ := processAttribute_unpack g a accessor hk hd hs
        rw [hp] at h
        by_cases h0 : unpackedNum accessor = 0
        · rw [if_pos h0] at h; cases h
        · rw [if_neg h0] at h
          by_cases h1 : unpackedNum accessor = floatCount accessor
          · simp only [Bool.and_eq_true, decide_eq_true_eq]
            exact ⟨⟨hs, Nat.pos_of_ne_zero h0⟩, h1⟩
          · rw [if_pos h1] at h; cases h
      · rw [processAttribute_shape g a accessor hk hd (fun h3 => hs (Or.inl h3))
          (fun h4 => hs (Or.inr h4))] at h
        cases h
  · have hk' : a.type ≠ .position ∧ a.type ≠ .color := by
      constructor <;> intro hc <;> exact hk (by simp [hc])
    simp [attributeAccepted, hk'.1, hk'.2]

theorem processAttributes_accepted {F : Type} [Zero F] (attrs : List (cgltf_attribute F))
    (h : attrs.all attributeAccepted = true) :
    ∀ g : Geometry F, ∃ g', processAttributes g attrs = .done g' ∧ g'.indices = g.indices := by
  induction attrs with
  | nil => intro g; exact ⟨g, rfl, rfl⟩
  | cons a rest ih =>
    intro g
    simp only [List.all_cons, Bool.and_eq_true] at h
    obtain ⟨g1, h1, hi1⟩ := processAttribute_accepted a h.1 g
    obtain ⟨g2, h2, hi2⟩ := ih h.2 g1
    exact ⟨g2, by rw [processAttributes, h1]; exact h2, hi2.trans hi1⟩

theorem processAttributes_done_accepted {F : Type} [Zero F] (attrs : List (cgltf_attribute F)) :
    ∀ g g' : Geometry F, processAttributes g attrs = .done g' →
      attrs.all attributeAccepted = true := by
  induction attrs with
  | nil => intro g g' _; rfl
  | cons a rest ih =>
    intro g g' h
    rw [processAttributes] at h
    cases h1 : processAttribute g a with
    | abort e g1 => rw [h1] at h; cases h
    | done g1 =>
      rw [h1] at h
      simp only [List.all_cons, Bool.and_eq_true]
      exact ⟨processAttribute_done_accepted g g1 a h1, ih g1 g' h⟩

/-- The index part of a primitive with an index accessor: the three format
assertions in order, then the assignment loop. -/
theorem processIndices_some {F : Type} (g : Geometry F) (p : cgltf_primitive F)
    (accessor : cgltf_accessor F) (hi : p.indices = some accessor) :
    processIndices g p =
      if ¬ (accessor.component_type = .r_8u ∨ accessor.component_type = .r_16u
          ∨ accessor.component_type = .r_32u) then .abort .indexComponentType g
      else if accessor.normalized = true then .abort .indexNormalized g
      else if ¬ (accessor.type = .scalar) then .abort .indexType g
      else .done { g with
        indices := List.map (cgltf_accessor_read_index accessor) (List.range accessor.count) } := by
  unfold processIndices
  simp only [hi, readIndices_resize, indexValues]

theorem processIndices_none {F : Type} (g : Geometry F) (p : cgltf_primitive F)
    (hi : p.indices = none) : processIndices g p = .done g := by
  simp [processIndices, hi]

/-- An accepted primitive is processed without error from every state. -/
theorem processPrimitive_accepted {F : Type} [Zero F] (p : cgltf_primitive F)
    (h : primitiveAccepted p = true) (g : Geometry F) :
    ∃ g', processPrimitive g p = .done g' := by
  unfold primitiveAccepted at h
  simp only [Bool.and_eq_true, decide_eq_true_eq] at h
  obtain ⟨⟨ht, ha⟩, hi⟩ := h
  obtain ⟨g1, h1, _⟩ := processAttributes_accepted p.attributes ha g
  unfold processPrimitive
  rw [if_neg (by simp [ht]), h1]
  simp only
  cases hidx : p.indices with
  | none => exact ⟨g1, processIndices_none g1 p hidx⟩
  | some accessor =>
    rw [hidx] at hi
    simp only [indexFormatOk, Bool.and_eq_true, decide_eq_true_eq, Bool.not_eq_true'] at hi
    obtain ⟨⟨hc, hn⟩, hs⟩ := hi
    rw [processIndices_some g1 p accessor hidx]
    simp [hc, hn, hs]

/-- A primitive that is processed without error is an accepted one. -/
theorem processPrimitive_done_accepted {F : Type} [Zero F] (g g' : Geometry F)
    (p : cgltf_primitive F) (h : processPrimitive g p = .done g') : primitiveAccepted p = true := by
  obtain ⟨ht, g1, ha, hi⟩ := processPrimitive_done_parts g g' p h
  unfold primitiveAccepted
  simp only [Bool.and_eq_true, decide_eq_true_eq]
  refine ⟨⟨ht, processAttributes_done_accepted p.attributes g g1 ha⟩, ?_⟩
  cases hidx : p.indices with
  | none => rfl
  | some accessor =>
    rw [processIndices_some g1 p accessor hidx] at hi
    simp only [indexFormatOk, Bool.and_eq_true, decide_eq_true_eq, Bool.not_eq_true']
    by_cases hc : accessor.component_type = .r_8u ∨ accessor.component_type = .r_16u
        ∨ accessor.component_type = .r_32u
    · rw [if_neg (by simp [hc])] at hi
      cases hn : accessor.normalized with
      | true => rw [hn] at hi; simp at hi
      | false =>
        rw [hn] at hi
        by_cases hs : accessor.type = .scalar
        · exact ⟨⟨hc, rfl⟩, hs⟩
        · simp [hs] at hi
    · rw [if_pos hc] at hi; cases hi

theorem processPrimitives_accepted {F : Type} [Zero F] (ps : List (cgltf_primitive F))
    (h : ps.all primitiveAccepted = true) :
    ∀ g : Geometry F, ∃ g', processPrimitives g ps = .done g' := by
  induction ps with
  | nil => intro g; exact ⟨g, rfl⟩
  | cons p rest ih =>
    intro g
    simp only [List.all_cons, Bool.and_eq_true] at h
    obtain ⟨g1, h1⟩ := processPrimitive_accepted p h.1 g
    obtain ⟨g2, h2⟩ := ih h.2 g1
    exact ⟨g2, by rw [processPrimitives, h1]; exact h2⟩

theorem processPrimitives_done_accepted {F : Type} [Zero F] (ps : List (cgltf_primitive F)) :
    ∀ g g' : Geometry F, processPrimitives g ps = .done g' →
      ps.all primitiveAccepted = true := by
  induction ps with
  | nil => intro g g' _; rfl
  | cons p rest ih =>
    intro g g' h
    rw [processPrimitives] at h
    cases h1 : processPrimitive g p with
    | abort e g1 => rw [h1] at h; cases h
    | done g1 =>
      rw [h1] at h
      simp only [List.all_cons, Bool.and_eq_true]
      exact ⟨processPrimitive_done_accepted g g1 p h1, ih g1 g' h⟩

/-- The walk ends in the error of an attribute that it reaches in the first
mesh-bearing node. -/
theorem extract_reach_attribute {F : Type} [Zero F] (nodes : List (cgltf_node F))
    (node : cgltf_node F) (m : cgltf_mesh F) (pre post : List (cgltf_primitive F))
    (p : cgltf_primitive F) (apre apost : List (cgltf_attribute F)) (a : cgltf_attribute F)
    (g1 g2 g3 : Geometry F) (e : Err)
    (hn : (meshNodes nodes).head? = some node) (hm : node.mesh = some m)
    (hps : m.primitives = pre ++ p :: post)
    (hpre : processPrimitives Geometry.empty pre = .done g1) (ht : p.type = .triangles)
    (hattrs : p.attributes = apre ++ a :: apost) (hapre : processAttributes g1 apre = .done g2)
    (ha : processAttribute g2 a = .abort e g3) : extract nodes = .abort e g3 := by
  apply extract_first_mesh_abort nodes node m _ _ hn hm
  rw [hps, processPrimitives_append, hpre]
  simp only [processPrimitives, processPrimitive, ht, not_true_eq_false, if_false]
  rw [hattrs, processAttributes_append, hapre]
  simp only [processAttributes, ha]

/-- A scene graph with an attribute that fails from every state in one of
its meshes is not extracted, and `main` has no output. -/
theorem extract_abort_of_attribute {F : Type} [Zero F] (a : cgltf_attribute F)
    (hbad : ∀ g : Geometry F, ∃ e g', processAttribute g a = .abort e g')
    (nodes : List (cgltf_node F)) (node : cgltf_node F) (m : cgltf_mesh F)
    (p : cgltf_primitive F) (hnode : node ∈ nodes) (hm : node.mesh = some m)
    (hp : p ∈ m.primitives) (ha : a ∈ p.attributes) :
    (∃ e g, extract nodes = .abort e g) ∧ main nodes = none := by
  have hx : ∃ e g, extract nodes = .abort e g :=
    extract_abort_of_mem nodes node m hnode hm
      (processPrimitives_abort_of_mem m.primitives p hp
        (processPrimitive_abort_of_attributes p
          (processAttributes_abort_of_mem p.attributes a ha hbad)))
  obtain ⟨e, g, hg⟩ := hx
  exact ⟨⟨e, g, hg⟩, main_of_abort nodes e g hg⟩

/-! ## The checks of the walk: claims -/

/-- The walk ends in the error of the index part of a primitive that it
reaches in the first mesh-bearing node. -/
theorem extract_reach_indices {F : Type} [Zero F] (nodes : List (cgltf_node F))
    (node : cgltf_node F) (m : cgltf_mesh F) (pre post : List (cgltf_primitive F))
    (p : cgltf_primitive F) (g1 g2 g3 : Geometry F) (e : Err)
    (hn : (meshNodes nodes).head? = some node) (hm : node.mesh = some m)
    (hps : m.primitives = pre ++ p :: post)
    (hpre : processPrimitives Geometry.empty pre = .done g1) (ht : p.type = .triangles)
    (hattrs : processAttributes g1 p.attributes = .done g2)
    (hi : processIndices g2 p = .abort e g3) : extract nodes = .abort e g3 := by
  apply extract_first_mesh_abort nodes node m _ _ hn hm
  rw [hps, processPrimitives_append, hpre]
  simp only [processPrimitives, processPrimitive, ht, not_true_eq_false, if_false, hattrs, hi]

/-- The walk over a single mesh goes on with the next primitive after the
index part of a primitive has been processed. -/
theorem extract_pass_indices {F : Type} [Zero F] (nodes : List (cgltf_node F))
    (node : cgltf_node F) (m : cgltf_mesh F) (pre post : List (cgltf_primitive F))
    (p : cgltf_primitive F) (g1 g2 g3 : Geometry F)
    (hn : meshNodes nodes = [node]) (hm : node.mesh = some m)
    (hps : m.primitives = pre ++ p :: post)
    (hpre : processPrimitives Geometry.empty pre = .done g1) (ht : p.type = .triangles)
    (hattrs : processAttributes g1 p.attributes = .done g2)
    (hi : processIndices g2 p = .done g3) : extract nodes = processPrimitives g3 post := by
  rw [extract_single_mesh nodes node m hn hm, hps, processPrimitives_append, hpre]
  simp only [processPrimitives, processPrimitive, ht, not_true_eq_false, if_false, hattrs, hi]

/-- C11: for a primitive with an index accessor, the index-format check
(lines 110-112) passes exactly when the component type is unsigned 8-, 16- or
32-bit, the accessor is not normalized and its type is scalar. When it
passes, `indices` becomes the values read in source order for
`i = 0 .. count - 1`, and the walk goes on with the next primitive. In every
other case the check aborts with one of the three index-format assertions,
the geometry untouched: the walk ends in that index-format error when it
reaches the check, and no scene graph containing the primitive in a mesh is
extracted, `main` has no output. -/
theorem C11_index_format {F : Type} [Zero F] (p : cgltf_primitive F)
    (accessor : cgltf_accessor F) (hi : p.indices = some accessor) :
    (((accessor.component_type = .r_8u ∨ accessor.component_type = .r_16u
          ∨ accessor.component_type = .r_32u) ∧ accessor.normalized = false
          ∧ accessor.type = .scalar) →
        (∀ g, processIndices g p = .done { g with
          indices := List.map (cgltf_accessor_read_index accessor) (List.range accessor.count) }) ∧
        ∀ nodes node m pre post g1 g2, meshNodes nodes = [node] → node.mesh = some m →
          m.primitives = pre ++ p :: post →
          processPrimitives Geometry.empty pre = .done g1 → p.type = .triangles →
          processAttributes g1 p.attributes = .done g2 →
          extract nodes = processPrimitives { g2 with
            indices := List.map (cgltf_accessor_read_index accessor) (List.range accessor.count) }
            post) ∧
      (¬ ((accessor.component_type = .r_8u ∨ accessor.component_type = .r_16u
          ∨ accessor.component_type = .r_32u) ∧ accessor.normalized = false
          ∧ accessor.type = .scalar) →
        (∀ g, ∃ e, (e = .indexComponentType ∨ e = .indexNormalized ∨ e = .indexType) ∧
          processIndices g p = .abort e g) ∧
        (∀ nodes node m, node ∈ nodes → node.mesh = some m → p ∈ m.primitives →
          (∃ e g, extract nodes = .abort e g) ∧ main nodes = none) ∧
        ∀ nodes node m pre post g1 g2, (meshNodes nodes).head? = some node →
          node.mesh = some m → m.primitives = pre ++ p :: post →
          processPrimitives Geometry.empty pre = .done g1 → p.type = .triangles →
          processAttributes g1 p.attributes = .done g2 →
          ∃ e, (e = .indexComponentType ∨ e = .indexNormalized ∨ e = .indexType) ∧
            extract nodes = .abort e g2 ∧ main nodes = none) := by
  constructor
  · rintro ⟨hc, hn, hs⟩
    have hlocal : ∀ g, processIndices g p = .done { g with
        indices := List.map (cgltf_accessor_read_index accessor) (List.range accessor.count) } := by
      intro g
      rw [processIndices_some g p accessor hi]
      simp [hc, hn, hs]
    refine ⟨hlocal, ?_⟩
    intro nodes node m pre post g1 g2 hnodes hm hps hpre ht hattrs
    exact extract_pass_indices nodes node m pre post p g1 g2 _ hnodes hm hps hpre ht hattrs
      (hlocal g2)
  · intro hbad
    have hlocal : ∀ g, ∃ e, (e = .indexComponentType ∨ e = .indexNormalized ∨ e = .indexType) ∧
        processIndices g p = .abort e g := by
      intro g
      rw [processIndices_some g p accessor hi]
      by_cases hc : accessor.component_type = .r_8u ∨ accessor.component_type = .r_16u
          ∨ accessor.component_type = .r_32u
      · rw [if_neg (by simp [hc])]
        cases hn : accessor.normalized with
        | true => exact ⟨_, Or.inr (Or.inl rfl), by simp⟩
        | false =>
          have hs : ¬ accessor.type = .scalar := fun hs => hbad ⟨hc, hn, hs⟩
          exact ⟨_, Or.inr (Or.inr rfl), by simp [hs]⟩
      · exact ⟨_, Or.inl rfl, by rw [if_pos hc]⟩
    refine ⟨hlocal, ?_, ?_⟩
    · intro nodes node m hnode hm hp
      have hprim : ∀ g : Geometry F, ∃ e g', processPrimitive g p = .abort e g' := by
        intro g
        cases hpp : processPrimitive g p with
        | abort e g' => exact ⟨e, g', rfl⟩
        | done g' =>
          obtain ⟨_, g1, _, hidx⟩ := processPrimitive_done_parts g g' p hpp
          obtain ⟨e, _, he⟩ := hlocal g1
          rw [he] at hidx; cases hidx
      obtain ⟨e, g, hg⟩ := extract_abort_of_mem nodes node m hnode hm
        (processPrimitives_abort_of_mem m.primitives p hp hprim)
      exact ⟨⟨e, g, hg⟩, main_of_abort nodes e g hg⟩
    · intro nodes node m pre post g1 g2 hnodes hm hps hpre ht hattrs
      obtain ⟨e, he, hidx⟩ := hlocal g2
      have hx := extract_reach_indices nodes node m pre post p g1 g2 g2 e hnodes hm hps hpre ht
        hattrs hidx
      exact ⟨e, he, hx, main_of_abort nodes e g2 hx⟩

/-- C11, witness: an unsigned 16-bit scalar index accessor with the values
`2 0 1` passes the check and is read in order; with a signed 16-bit index
accessor the walk ends in an index-format error, the position already
unpacked. -/
theorem C11_index_format_witness :
    extract unsignedIndices
        = .done { vertexPositions := [1, 2, 3], vertexColors := [], indices := [2, 0, 1] } ∧
      ∃ e, (e = .indexComponentType ∨ e = .indexNormalized ∨ e = .indexType) ∧
        extract signedIndices
          = .abort e { vertexPositions := [1, 2, 3], vertexColors := [], indices := [] } ∧
        main signedIndices = none :=
  ⟨((C11_index_format (trianglePrimitive 1 2 3 [2, 0, 1]) (indexAccessor [2, 0, 1]) rfl).1
      (by decide)).2 unsignedIndices (meshNode [trianglePrimitive 1 2 3 [2, 0, 1]])
      { primitives := [trianglePrimitive 1 2 3 [2, 0, 1]] } [] [] Geometry.empty
      { vertexPositions := [1, 2, 3], vertexColors := [], indices := [] }
      (by decide) rfl rfl rfl rfl (by decide),
    ((C11_index_format signedIndexPrimitive signedIndexAccessor rfl).2 (by decide)).2.2
      signedIndices (meshNode [signedIndexPrimitive]) { primitives := [signedIndexPrimitive] }
      [] [] Geometry.empty { vertexPositions := [1, 2, 3], vertexColors := [], indices := [] }
      rfl rfl rfl rfl rfl (by decide)⟩

/-- C12: when the walk unpacks a position or colour accessor (one that has
passed the shape assertion) and the returned float count differs from
`count * elementSize`, the attribute aborts in one of the two assertions on
that count: line 104 when nothing was unpacked, line 105 otherwise (as for 8
floats instead of 3 * 3). The walk ends in that error when it reaches the
attribute, no scene graph with the attribute in a mesh is extracted, and
`main` has no output. -/
theorem C12_unpack_count_mismatch {F : Type} [Zero F] (a : cgltf_attribute F)
    (accessor : cgltf_accessor F) (hk : a.type = .position ∨ a.type = .color)
    (hd : a.data = some accessor) (hs : accessor.type = .vec3 ∨ accessor.type = .vec4)
    (hne : unpackedNum accessor ≠ floatCount accessor) :
    (∀ g, ∃ g', processAttribute g a
        = .abort (if unpackedNum accessor = 0 then .unpackedNothing else .unpackedCount) g') ∧
      (∀ nodes node m p, node ∈ nodes → node.mesh = some m → p ∈ m.primitives →
        a ∈ p.attributes → (∃ e g, extract nodes = .abort e g) ∧ main nodes = none) ∧
      (∀ nodes node m pre p post apre apost g1 g2, (meshNodes nodes).head? = some node →
        node.mesh = some m → m.primitives = pre ++ p :: post →
        processPrimitives Geometry.empty pre = .done g1 → p.type = .triangles →
        p.attributes = apre ++ a :: apost → processAttributes g1 apre = .done g2 →
        ∃ g3, extract nodes
          = .abort (if unpackedNum accessor = 0 then .unpackedNothing else .unpackedCount) g3) := by
  have hlocal : ∀ g, ∃ g', processAttribute g a
      = .abort (if unpackedNum accessor = 0 then .unpackedNothing else .unpackedCount) g' := by
    intro g
    obtain ⟨g2, _, hp⟩ := processAttribute_unpack g a accessor hk hd hs
    refine ⟨g2, ?_⟩
    rw [hp]
    by_cases h0 : unpackedNum accessor = 0
    · simp [h0]
    · simp [h0, hne]
  refine ⟨hlocal, ?_, ?_⟩
  · intro nodes node m p hnode hm hp ha
    exact extract_abort_of_attribute a (fun g => by
      obtain ⟨g', h⟩ := hlocal g
      exact ⟨_, g', h⟩) nodes node m p hnode hm hp ha
  · intro nodes node m pre p post apre apost g1 g2 hn hm hps hpre ht hattrs hapre
    obtain ⟨g3, h3⟩ := hlocal g2
    exact ⟨g3, extract_reach_attribute nodes node m pre post p apre apost a g1 g2 g3 _
      hn hm hps hpre ht hattrs hapre h3⟩

/-- C12, witness: three elements of three components, eight floats
unpacked: the walk aborts on line 105. -/
theorem C12_unpack_count_mismatch_witness :
    unpackedNum shortAccessor = 8 ∧ floatCount shortAccessor = 9 ∧
      ∃ g3, extract shortUnpack = .abort .unpackedCount g3 :=
  ⟨by decide, by decide,
    (C12_unpack_count_mismatch { type := .position, data := some shortAccessor } shortAccessor
      (Or.inl rfl) rfl (Or.inl rfl) (by decide)).2.2
      shortUnpack _ _ [] _ [] [] [] Geometry.empty Geometry.empty rfl rfl rfl rfl rfl rfl rfl⟩

/-- C18: the walk aborts whenever unpacking a position or colour accessor
(one that has passed the shape assertion) yields zero floats, on the
assertion `num > 0` of line 104. This holds in particular for an accessor
without elements, where the expected count and the unpacked count are both
zero and do not differ: no empty vector is produced. -/
theorem C18_zero_floats_abort {F : Type} [Zero F] (a : cgltf_attribute F)
    (accessor : cgltf_accessor F) (hk : a.type = .position ∨ a.type = .color)
    (hd : a.data = some accessor) (hs : accessor.type = .vec3 ∨ accessor.type = .vec4)
    (hz : accessor.count = 0 ∨ unpackedNum accessor = 0) :
    unpackedNum accessor = 0 ∧
      (accessor.count = 0 → floatCount accessor = 0 ∧ unpackedNum accessor = floatCount accessor) ∧
      (∀ g, ∃ g', processAttribute g a = .abort .unpackedNothing g') ∧
      (∀ nodes node m p, node ∈ nodes → node.mesh = some m → p ∈ m.primitives →
        a ∈ p.attributes → (∃ e g, extract nodes = .abort e g) ∧ main nodes = none) ∧
      (∀ nodes node m pre p post apre apost g1 g2, (meshNodes nodes).head? = some node →
        node.mesh = some m → m.primitives = pre ++ p :: post →
        processPrimitives Geometry.empty pre = .done g1 → p.type = .triangles →
        p.attributes = apre ++ a :: apost → processAttributes g1 apre = .done g2 →
        ∃ g3, extract nodes = .abort .unpackedNothing g3) := by
  have hcount : accessor.count = 0 → floatCount accessor = 0 := by
    intro hc
    simp [floatCount, sizeMul, hc]
  have hnum : unpackedNum accessor = 0 := by
    rcases hz with hc | h0
    · simp [unpackedNum, cgltf_accessor_unpack_floats, hcount hc]
    · exact h0
  have hlocal : ∀ g, ∃ g', processAttribute g a = .abort .unpackedNothing g' := by
    intro g
    obtain ⟨g2, _, hp⟩ := processAttribute_unpack g a accessor hk hd hs
    exact ⟨g2, by rw [hp, if_pos hnum]⟩
  refine ⟨hnum, fun hc => ⟨hcount hc, by rw [hnum, hcount hc]⟩, hlocal, ?_, ?_⟩
  · intro nodes node m p hnode hm hp ha
    exact extract_abort_of_attribute a (fun g => by
      obtain ⟨g', h⟩ := hlocal g
      exact ⟨_, g', h⟩) nodes node m p hnode hm hp ha
  · intro nodes node m pre p post apre apost g1 g2 hn hm hps hpre ht hattrs hapre
    obtain ⟨g3, h3⟩ := hlocal g2
    exact ⟨g3, extract_reach_attribute nodes node m pre post p apre apost a g1 g2 g3 _
      hn hm hps hpre ht hattrs hapre h3⟩

/-- C18, witness: a colour accessor without elements after a position
attribute: the walk aborts on line 104. -/
theorem C18_zero_floats_abort_witness :
    emptyAccessor.count = 0 ∧ ∃ g3, extract emptyColors = .abort .unpackedNothing g3 :=
  ⟨rfl,
    (C18_zero_floats_abort { type := .color, data := some emptyAccessor } emptyAccessor
      (Or.inr rfl) rfl (Or.inr rfl) (Or.inl rfl)).2.2.2.2
      emptyColors _ _ [] _ [] [{ type := .position, data := some (floatAccessor .vec3 1 [1, 2, 3]) }]
      [] Geometry.empty { vertexPositions := [1, 2, 3], vertexColors := [], indices := [] }
      rfl rfl rfl rfl rfl rfl (by decide)⟩

/-! ## Non-indexed meshes and the layout of the colour vector -/

theorem replacedIndices_none {F : Type} (ps : List (cgltf_primitive F))
    (h : ∀ p ∈ ps, p.indices = none) : ∀ init, replacedIndices ps init = init := by
  induction ps with
  | nil => intro init; rfl
  | cons p rest ih =>
    intro init
    have hp : p.indices = none := h p (List.mem_cons_self _ _)
    have hstep : replacedIndices (p :: rest) init = replacedIndices rest init := by
      simp [replacedIndices, hp]
    rw [hstep]
    exact ih (fun q hq => h q (List.mem_cons_of_mem _ hq)) init

theorem toDrawArrays_no_indices {F : Type} (g : Geometry F) (h : g.indices = []) :
    toDrawArrays g = some { vertexPositions := [], vertexColors := [], indices := [] } := by
  simp [toDrawArrays, h, toDrawArraysLoop, Geometry.empty]

/-- C17, counterexample: a single mesh whose only primitive is a line strip
without index accessor: the walk does not succeed, it aborts on the
topology assertion. -/
theorem C17_no_indices_may_abort :
    meshNodes lineStripOnly = [meshNode [lineStripPrimitive]] ∧
      (∀ p ∈ [lineStripPrimitive], p.indices = none) ∧
      extract lineStripOnly = .abort .topology Geometry.empty ∧ main lineStripOnly = none := by
  refine ⟨by decide, by decide, by decide, by decide⟩

/-- C17, amended: for a single-mesh scene graph in which no primitive has an
index accessor, the walk succeeds exactly when every primitive passes the
other checks (triangle topology, accepted attributes). When it succeeds,
`indices` is empty, and `main` outputs the empty Flat Geometry whatever
vertex data was unpacked: a non-indexed mesh flattens to nothing. -/
theorem C17_no_index_accessor {F : Type} [Zero F] (nodes : List (cgltf_node F))
    (node : cgltf_node F) (m : cgltf_mesh F)
    (hn : meshNodes nodes = [node]) (hm : node.mesh = some m)
    (hi : ∀ p ∈ m.primitives, p.indices = none) :
    ((∃ g, extract nodes = .done g) ↔ m.primitives.all primitiveAccepted = true) ∧
      ∀ g, extract nodes = .done g →
        g.indices = [] ∧
        main nodes = some { vertexPositions := [], vertexColors := [], indices := [] } := by
  have hx := extract_single_mesh nodes node m hn hm
  refine ⟨⟨?_, ?_⟩, ?_⟩
  · rintro ⟨g, hg⟩
    rw [hx] at hg
    exact processPrimitives_done_accepted m.primitives Geometry.empty g hg
  · intro hacc
    obtain ⟨g, hg⟩ := processPrimitives_accepted m.primitives hacc Geometry.empty
    exact ⟨g, by rw [hx]; exact hg⟩
  · intro g hg
    have hg' := hg
    rw [hx] at hg'
    have hidx : g.indices = [] := by
      rw [(processPrimitives_done m.primitives Geometry.empty g hg').1]
      exact replacedIndices_none m.primitives hi _
    refine ⟨hidx, ?_⟩
    simp only [main, hg]
    exact toDrawArrays_no_indices g hidx

/-- C17, witness: a triangle with positions and colours but no index
accessor is extracted with nine position floats and twelve colour floats,
and the output of `main` is empty. -/
theorem C17_no_index_accessor_witness :
    extract nonIndexed = .done
        { vertexPositions := [0, 0, 0, 1, 0, 0, 0, 1, 0]
          vertexColors := [1, 0, 0, 1, 0, 1, 0, 1, 0, 0, 1, 1], indices := [] } ∧
      main nonIndexed = some { vertexPositions := [], vertexColors := [], indices := [] } :=
  ⟨by decide,
    ((C17_no_index_accessor nonIndexed (meshNode [nonIndexedPrimitive])
      { primitives := [nonIndexedPrimitive] } (by decide) rfl (by decide)).2
      { vertexPositions := [0, 0, 0, 1, 0, 0, 0, 1, 0]
        vertexColors := [1, 0, 0, 1, 0, 1, 0, 1, 0, 0, 1, 1], indices := [] } (by decide)).2⟩

/-- The three steps of the unchecked flattener over the geometry that the
walk leaves for three-component colours: whatever the reads beyond the end of
the colour vector yield, a result starts with the colour floats
`1 0 0 0  1 0 0 0  1`. -/
theorem toDrawArraysWith_colorsVec3 (beyond : Nat → Nat → Option Int) (out : Geometry Int)
    (h : toDrawArraysWith beyond colorsVec3Result = some out) :
    out.vertexColors.take 9 = [1, 0, 0, 0, 1, 0, 0, 0, 1] := by
  have e0 : toDrawArraysStepWith (beyond 0) colorsVec3Result Geometry.empty 0
      = some { vertexPositions := [0, 0, 0], vertexColors := [1, 0, 0, 0], indices := [] } := by
    simp [toDrawArraysStepWith, readAt, offset, sizeMul, SIZE_RANGE, push_back, colorsVec3Result,
      Geometry.empty]
  have e1 : toDrawArraysStepWith (beyond 1) colorsVec3Result
        { vertexPositions := [0, 0, 0], vertexColors := [1, 0, 0, 0], indices := [] } 1
      = some { vertexPositions := [0, 0, 0, 1, 0, 0], vertexColors := [1, 0, 0, 0, 1, 0, 0, 0],
               indices := [] } := by
    simp [toDrawArraysStepWith, readAt, offset, sizeMul, SIZE_RANGE, push_back, colorsVec3Result]
  have hi : colorsVec3Result.indices = [0, 1, 2] := rfl
  simp only [toDrawArraysWith, hi, toDrawArraysLoopWith, e0, e1] at h
  cases h2 : toDrawArraysStepWith (beyond (0 + 1 + 1)) colorsVec3Result
      { vertexPositions := [0, 0, 0, 1, 0, 0], vertexColors := [1, 0, 0, 0, 1, 0, 0, 0],
        indices := [] } 2 with
  | none => rw [h2] at h; cases h
  | some out2 =>
    rw [h2] at h
    simp only [Option.some.injEq] at h
    subst h
    simp [toDrawArraysStepWith, readAt, offset, sizeMul, SIZE_RANGE, push_back,
      colorsVec3Result] at h2
    cases hb4 : beyond 2 4 with
    | none => simp [hb4] at h2
    | some b4 =>
      cases hb5 : beyond 2 5 with
      | none => simp [hb4, hb5] at h2
      | some b5 =>
        cases hb6 : beyond 2 6 with
        | none => simp [hb4, hb5, hb6] at h2
        | some b6 =>
          simp [hb4, hb5, hb6] at h2
          rw [← h2]
          rfl

/-- C14, the code at the failing inputs. A triangle whose three colours
`1 0 0`, `0 1 0`, `0 0 1` come from a three-component accessor: the walk
accepts the accessor and leaves `3 * 3 = 9` colour floats, not `4 * 3 = 12`.
`toDrawArrays` then reads the colours in groups of four: the read for index 2
at colour offset 9 is beyond the end of the vector (with such reads
faulting, `main` has no output), and whatever those reads yield, a result
gives the second corner the colour floats `1 0 0 0` instead of the colour
`0 1 0` of vertex 1. The position half fails in the same way: a
four-component position accessor is accepted and leaves `4 * 1` position
floats, not `3 * 1`. -/
theorem C14_vec3_colors_not_quadruples :
    (∃ g, extract colorsVec3 = .done g ∧
      g.vertexPositions.length = 3 * 3 ∧ g.vertexColors.length = 3 * 3 ∧
      g.vertexColors.length ≠ 4 * 3 ∧ toDrawArrays g = none ∧ main colorsVec3 = none ∧
      g.vertexColors[offset 2 4 1]? = none ∧
      ∀ (beyond : Nat → Nat → Option Int) (out : Geometry Int),
        toDrawArraysWith beyond g = some out →
          out.vertexColors.take 9 = [1, 0, 0, 0, 1, 0, 0, 0, 1]) ∧
      ∃ g', extract positionVec4 = .done g' ∧
        g'.vertexPositions.length = 4 * 1 ∧ g'.vertexPositions.length ≠ 3 * 1 := by
  refine ⟨⟨colorsVec3Result, by decide, by decide, by decide, by decide, by decide, by decide,
    by decide, toDrawArraysWith_colorsVec3⟩,
    { vertexPositions := [1, 2, 3, 4], vertexColors := [], indices := [] },
    by decide, by decide, by decide⟩

/-! ## The index-range invariant -/

theorem unpackedFloats_length {F : Type} (accessor : cgltf_accessor F) :
    (unpackedFloats accessor).length = unpackedNum accessor := rfl

/-- What acceptance says of an attribute of kind position or colour. -/
theorem attributeAccepted_kind {F : Type} (a : cgltf_attribute F)
    (hk : a.type = .position ∨ a.type = .color) (h : attributeAccepted a = true) :
    ∃ accessor, a.data = some accessor ∧ (accessor.type = .vec3 ∨ accessor.type = .vec4) ∧
      0 < unpackedNum accessor ∧ (unpackedFloats accessor).length = floatCount accessor := by
  have hk' : ¬ (a.type ≠ .position ∧ a.type ≠ .color) := by
    rcases hk with h | h <;> simp [h]
  unfold attributeAccepted at h
  rw [if_neg hk'] at h
  cases hd : a.data with
  | none => rw [hd] at h; cases h
  | some accessor =>
    rw [hd] at h
    simp only [Bool.and_eq_true, decide_eq_true_eq] at h
    exact ⟨accessor, rfl, h.1.1, h.1.2, by rw [unpackedFloats_length]; exact h.2⟩

/-- A property of the unpacked floats of every attribute of a kind carries
over to the vector that the attributes of a primitive leave. -/
theorem replacedFloatsIn_prop {F : Type} (P : List F → Prop) (kind : cgltf_attribute_type)
    (attrs : List (cgltf_attribute F))
    (hall : ∀ a ∈ attrs, a.type = kind → ∃ accessor, a.data = some accessor ∧
      P (unpackedFloats accessor)) :
    ∀ init, (P init → P (replacedFloatsIn kind attrs init)) ∧
      ((∃ a ∈ attrs, a.type = kind) → P (replacedFloatsIn kind attrs init)) := by
  induction attrs with
  | nil =>
    intro init
    exact ⟨fun h => h, fun ⟨a, ha, _⟩ => by simp at ha⟩
  | cons b rest ih =>
    intro init
    have hrest := ih (fun a ha => hall a (List.mem_cons_of_mem _ ha))
    have hstep : replacedFloatsIn kind (b :: rest) init
        = replacedFloatsIn kind rest (replacedFloatsIn kind [b] init) := rfl
    rw [hstep]
    by_cases hb : b.type = kind
    · obtain ⟨accessor, hd, hP⟩ := hall b (List.mem_cons_self _ _) hb
      have h1 : replacedFloatsIn kind [b] init = unpackedFloats accessor := by
        simp [replacedFloatsIn_single, hb, hd]
      rw [h1]
      exact ⟨fun _ => (hrest _).1 hP, fun _ => (hrest _).1 hP⟩
    · have h1 : replacedFloatsIn kind [b] init = init := by
        simp [replacedFloatsIn_single, hb]
      rw [h1]
      refine ⟨(hrest init).1, ?_⟩
      rintro ⟨a, ha, hka⟩
      rcases List.mem_cons.mp ha with rfl | hr
      · exact absurd hka hb
      · exact (hrest init).2 ⟨a, hr, hka⟩

/-- The same over the primitives of a mesh. -/
theorem replacedFloats_prop {F : Type} (P : List F → Prop) (kind : cgltf_attribute_type)
    (ps : List (cgltf_primitive F))
    (hall : ∀ p ∈ ps, ∀ a ∈ p.attributes, a.type = kind → ∃ accessor, a.data = some accessor ∧
      P (unpackedFloats accessor)) :
    ∀ init, (P init → P (replacedFloats kind ps init)) ∧
      ((∃ p ∈ ps, ∃ a ∈ p.attributes, a.type = kind) → P (replacedFloats kind ps init)) := by
  induction ps with
  | nil =>
    intro init
    exact ⟨fun h => h, fun ⟨p, hp, _⟩ => by simp at hp⟩
  | cons q rest ih =>
    intro init
    have hrest := ih (fun p hp => hall p (List.mem_cons_of_mem _ hp))
    have hq := replacedFloatsIn_prop P kind q.attributes (hall q (List.mem_cons_self _ _)) init
    have hstep : replacedFloats kind (q :: rest) init
        = replacedFloats kind rest (replacedFloatsIn kind q.attributes init) := rfl
    rw [hstep]
    refine ⟨fun h => (hrest _).1 (hq.1 h), ?_⟩
    rintro ⟨p, hp, a, ha, hka⟩
    rcases List.mem_cons.mp hp with rfl | hr
    · exact (hrest _).1 (hq.2 ⟨a, ha, hka⟩)
    · exact (hrest _).2 ⟨p, hr, a, ha, hka⟩

/-- A property of the index sequence of every index accessor carries over to
the index vector that the primitives leave. -/
theorem replacedIndices_prop {F : Type} (Q : List Nat → Prop) (ps : List (cgltf_primitive F))
    (hall : ∀ p ∈ ps, ∀ accessor, p.indices = some accessor → Q (indexValues accessor)) :
    ∀ init, Q init → Q (replacedIndices ps init) := by
  induction ps with
  | nil => intro init h; exact h
  | cons q rest ih =>
    intro init h
    have hrest := ih (fun p hp => hall p (List.mem_cons_of_mem _ hp))
    cases hq : q.indices with
    | none =>
      have hstep : replacedIndices (q :: rest) init = replacedIndices rest init := by
        simp [replacedIndices, hq]
      rw [hstep]; exact hrest init h
    | some accessor =>
      have hstep : replacedIndices (q :: rest) init
          = replacedIndices rest (indexValues accessor) := by
        simp [replacedIndices, hq]
      rw [hstep]
      exact hrest _ (hall q (List.mem_cons_self _ _) accessor hq)

/-- C15, counterexample: the worked example as a scene graph, a mesh with
positions and indices and no colour attribute. The walk succeeds with six
indices and an empty colour vector, so no index is below
`vertexColors.length / 4 = 0`, positions and colours do not describe the
same vertex count, and `toDrawArrays` has no result for it. -/
theorem C15_position_only_mesh :
    extract quadScene = .done quadNoColors ∧
      (¬ ∀ i ∈ quadNoColors.indices, i < quadNoColors.vertexColors.length / 4) ∧
      quadNoColors.vertexPositions.length / 3 ≠ quadNoColors.vertexColors.length / 4 ∧
      main quadScene = none := by
  refine ⟨by decide, by decide, by decide, by decide⟩

/-- C15, amended: the walk checks neither the range of the indices nor the
vertex counts; it hands on what the asset holds. For a single-mesh scene
graph that is extracted without error, if every position accessor is a
three-component vector of `V` elements, every colour accessor a
four-component vector of `V` elements, both kinds occur, and every index
value read is below `V`, then the geometry satisfies the invariants with `V`
vertices: every index is below `vertexPositions.length / 3` and below
`vertexColors.length / 4`, both of which are `V`, and `main` has an
output. -/
theorem C15_invariant_from_asset {F : Type} [Zero F] (nodes : List (cgltf_node F))
    (node : cgltf_node F) (m : cgltf_mesh F) (g : Geometry F) (V : Nat)
    (hn : meshNodes nodes = [node]) (hm : node.mesh = some m) (hd : extract nodes = .done g)
    (hV : 4 * V < SIZE_RANGE)
    (hpos : ∀ p ∈ m.primitives, ∀ a ∈ p.attributes, a.type = .position →
      ∀ accessor, a.data = some accessor → accessor.type = .vec3 ∧ accessor.count = V)
    (hcol : ∀ p ∈ m.primitives, ∀ a ∈ p.attributes, a.type = .color →
      ∀ accessor, a.data = some accessor → accessor.type = .vec4 ∧ accessor.count = V)
    (hidx : ∀ p ∈ m.primitives, ∀ accessor, p.indices = some accessor →
      ∀ i, i < accessor.count → cgltf_accessor_read_index accessor i < V)
    (hp1 : ∃ p ∈ m.primitives, ∃ a ∈ p.attributes, a.type = .position)
    (hc1 : ∃ p ∈ m.primitives, ∃ a ∈ p.attributes, a.type = .color) :
    g.Valid V ∧ g.vertexPositions.length / 3 = V ∧ g.vertexColors.length / 4 = V ∧
      (∀ i ∈ g.indices, i < g.vertexPositions.length / 3 ∧ i < g.vertexColors.length / 4) ∧
      ∃ out, main nodes = some out := by
  have hd' := hd
  rw [extract_single_mesh nodes node m hn hm] at hd'
  obtain ⟨hgi, hgp, hgc⟩ := processPrimitives_done m.primitives Geometry.empty g hd'
  have hacc := processPrimitives_done_accepted m.primitives Geometry.empty g hd'
  have hattr : ∀ p ∈ m.primitives, ∀ a ∈ p.attributes, attributeAccepted a = true := by
    intro p hp a ha
    have h1 := List.all_eq_true.mp hacc p hp
    simp only [primitiveAccepted, Bool.and_eq_true] at h1
    exact List.all_eq_true.mp h1.1.2 a ha
  have hplen : g.vertexPositions.length = 3 * V := by
    rw [hgp]
    refine (replacedFloats_prop (fun v => v.length = 3 * V) .position m.primitives ?_ _).2 hp1
    intro p hp a ha hk
    obtain ⟨accessor, hdata, _, _, hlen⟩ := attributeAccepted_kind a (Or.inl hk) (hattr p hp a ha)
    obtain ⟨ht, hc⟩ := hpos p hp a ha hk accessor hdata
    refine ⟨accessor, hdata, ?_⟩
    show (unpackedFloats accessor).length = _
    rw [hlen, floatCount, ht, hc, sizeMul, cgltf_num_components, Nat.mod_eq_of_lt (by omega)]
    omega
  have hclen : g.vertexColors.length = 4 * V := by
    rw [hgc]
    refine (replacedFloats_prop (fun v => v.length = 4 * V) .color m.primitives ?_ _).2 hc1
    intro p hp a ha hk
    obtain ⟨accessor, hdata, _, _, hlen⟩ := attributeAccepted_kind a (Or.inr hk) (hattr p hp a ha)
    obtain ⟨ht, hc⟩ := hcol p hp a ha hk accessor hdata
    refine ⟨accessor, hdata, ?_⟩
    show (unpackedFloats accessor).length = _
    rw [hlen, floatCount, ht, hc, sizeMul, cgltf_num_components, Nat.mod_eq_of_lt (by omega)]
    omega
  have hrange : ∀ i ∈ g.indices, i < V := by
    rw [hgi]
    refine replacedIndices_prop (fun l => ∀ i ∈ l, i < V) m.primitives ?_ _ (by simp [Geometry.empty])
    intro p hp accessor hi i hmem
    simp only [indexValues, List.mem_map, List.mem_range] at hmem
    obtain ⟨k, hk, rfl⟩ := hmem
    exact hidx p hp accessor hi k hk
  have hp3 : g.vertexPositions.length / 3 = V := by rw [hplen]; omega
  have hc4 : g.vertexColors.length / 4 = V := by rw [hclen]; omega
  refine ⟨⟨hplen, hclen, hrange⟩, hp3, hc4, ?_, ?_⟩
  · intro i hi
    rw [hp3, hc4]
    exact ⟨hrange i hi, hrange i hi⟩
  · have hloop := toDrawArraysLoop_inBounds g (by omega) g.indices Geometry.empty
      (fun idx hidx => by have := hrange idx hidx; constructor <;> omega)
    exact ⟨_, by simp only [main, hd, toDrawArrays]; exact hloop⟩

/-- C15, witness: the worked example with a four-component colour for each
of its four vertices. -/
theorem C15_invariant_from_asset_witness :
    extract quadSceneColored = .done quadColored ∧ quadColored.Valid 4 ∧
      ∃ out, main quadSceneColored = some out :=
  have h := C15_invariant_from_asset quadSceneColored
    (meshNode [{ type := .triangles
                 attributes := [{ type := .position, data := some (floatAccessor .vec3 4 quadPositions) },
                                { type := .color,
                                  data := some (floatAccessor .vec4 4 quadColored.vertexColors) }]
                 indices := some (indexAccessor quadIndices) }])
    { primitives := [{ type := .triangles
                       attributes := [{ type := .position,
                                        data := some (floatAccessor .vec3 4 quadPositions) },
                                      { type := .color,
                                        data := some (floatAccessor .vec4 4 quadColored.vertexColors) }]
                       indices := some (indexAccessor quadIndices) }] }
    quadColored 4 (by decide) rfl (by decide) (by decide)
    (by simp [floatAccessor]) (by simp [floatAccessor])
    (by simp [indexAccessor, quadIndices, cgltf_accessor_read_index]; decide)
    (by simp) (by simp)
  ⟨by decide, h.1, h.2.2.2.2⟩

end Gltf2ve
